import Mathlib

/-!
# Verification of jack_midi_clock

A shallow embedding of the core logic of the `jack_midi_clock` repository:

* `src/jack_midi_clock.c` — the generator: the `process` JACK callback with its
  transport state machine, song-position encoder (`send_pos_message`) and the
  drift-free clock tick scheduler (the `while(1)` loop).
* `src/jack_mclk_dump.c` — the analyzer: the real-time producer
  (`process_jmidi_event` / `process`) and the BPM-reporting consumer loop of
  `main`.

Modelling conventions:

* C `double` arithmetic is modelled with `ℚ` (the computations involved are
  field operations, `floor` and round-to-nearest; `llrint` under the default
  rounding mode is round-to-nearest, modelled with Mathlib's `round`; no claim
  under consideration depends on the tie-breaking direction).
* `jack_nframes_t` (`uint32_t`) values (`frame`, `frame_rate`, `bbt_offset`,
  `nframes`) are modelled as `Nat`; `int32_t` BBT fields as `Int`.
* The unbounded C `while(1)` scheduler loop is modelled with an explicit fuel
  parameter (the C loop terminates only when the tick interval is positive).
* `jack_midi_event_reserve` is modelled as always succeeding: the output
  buffer is an unbounded list of events in emission order.
* The analyzer's `unsigned long long` cycle counter is modelled as `Nat`;
  the consumer's 64-bit wrapping subtraction `t.tme - pt.tme` is modelled
  explicitly by `u64sub`.
-/

namespace JackMidiClock

/-- bitwise flags -- used w/ msg_filter (enum in jack_midi_clock.c) -/
def MSG_NO_TRANSPORT : Nat := 1
/-- `MSG_NO_CLOCK = 2` -/
def MSG_NO_CLOCK : Nat := 2
/-- `MSG_NO_POSITION = 4` -/
def MSG_NO_POSITION : Nat := 4
/-- `MSG_NO_CONT_CLOCK = 8` -/
def MSG_NO_CONT_CLOCK : Nat := 8

/-- `#define MIDI_RT_CLOCK (0xF8)` -/
def MIDI_RT_CLOCK : Nat := 0xF8
/-- `#define MIDI_RT_START (0xFA)` -/
def MIDI_RT_START : Nat := 0xFA
/-- `#define MIDI_RT_CONTINUE (0xFB)` -/
def MIDI_RT_CONTINUE : Nat := 0xFB
/-- `#define MIDI_RT_STOP (0xFC)` -/
def MIDI_RT_STOP : Nat := 0xFC

/-- `jack_transport_state_t` restricted to the states the spec's data model
uses (`Stopped`, `Rolling`, `Starting`). -/
inductive TState where
  | Stopped
  | Rolling
  | Starting
deriving DecidableEq, Repr

/-- The relevant part of `jack_position_t`, as queried once per cycle.
`validBBT` models `valid & JackPositionBBT`, `validBBTOffset` models
`valid & JackBBTFrameOffset`. -/
structure Pos where
  validBBT : Bool
  validBBTOffset : Bool
  bar : Int
  beat : Int
  tick : Int
  bar_start_tick : ℚ
  beats_per_bar : ℚ
  ticks_per_beat : ℚ
  beats_per_minute : ℚ
  frame : Nat
  frame_rate : Nat
  bbt_offset : Nat
deriving DecidableEq, Repr

/-- `struct bbtpos` — the cached last position (`last_xpos`). -/
structure bbtpos where
  valid : Bool
  bar : Int
  beat : Int
  tick : Int
  bar_start_tick : ℚ
deriving DecidableEq, Repr

/-- One MIDI event written to the port buffer: a sample offset within the
current cycle and the raw bytes. -/
structure Ev where
  time : Nat
  bytes : List Nat
deriving DecidableEq, Repr

/-- C truncation of a `double` on assignment to `int` (rounds toward zero). -/
def ratTrunc (q : ℚ) : Int := if q < 0 then ⌈q⌉ else ⌊q⌋

/-- The 14-bit beat count computed in `send_pos_message`:
`4 * ((bar - 1) * beats_per_bar + (beat - 1)) + floor(4.0 * tick / ticks_per_beat)`,
truncated on assignment to `const int bcnt`. -/
def bcnt (xpos : Pos) : Int :=
  ratTrunc (4 * (((xpos.bar : ℚ) - 1) * xpos.beats_per_bar + ((xpos.beat : ℚ) - 1))
    + (⌊4 * (xpos.tick : ℚ) / xpos.ticks_per_beat⌋ : ℚ))

/-- `send_pos_message`: emit a Song Position Pointer (`0xF2 lsb msb`) unless
position messages are filtered, BBT is invalid, or the count is out of the
14-bit range. -/
def send_pos_message (msg_filter : Nat) (xpos : Pos) : List Ev :=
  if msg_filter &&& MSG_NO_POSITION ≠ 0 then []
  else if xpos.validBBT = false then []
  else if bcnt xpos < 0 ∨ 16384 ≤ bcnt xpos then []
  else [⟨0, [0xF2, (bcnt xpos).toNat &&& 0x7F, ((bcnt xpos).toNat >>> 7) &&& 0x7F]⟩]

/-- `pos_changed`: -1 cached position invalid, -2 current invalid, 0 equal
bar/beat/tick, 1 changed. -/
def pos_changed (xp0 : bbtpos) (xp1 : Pos) : Int :=
  if xp0.valid = false then -1
  else if xp1.validBBT = false then -2
  else if xp0.bar = xp1.bar ∧ xp0.beat = xp1.beat ∧ xp0.tick = xp1.tick then 0
  else 1

/-- `remember_pos`: refresh the cached position if the current one carries
valid BBT information. -/
def remember_pos (xp0 : bbtpos) (xp1 : Pos) : bbtpos :=
  if xp1.validBBT = false then xp0
  else ⟨xp1.validBBT, xp1.bar, xp1.beat, xp1.tick, xp1.bar_start_tick⟩

/-- Command-line configuration consumed by the process callback. -/
structure Config where
  user_bpm : ℚ
  force_bpm : Bool
  msg_filter : Nat
deriving DecidableEq, Repr

/-- The default configuration (`user_bpm = 0.0`, `force_bpm = 0`,
`msg_filter = MSG_NO_CONT_CLOCK`). -/
def defaultCfg : Config := ⟨0, false, MSG_NO_CONT_CLOCK⟩

/-- The generator's persistent state across cycles: `m_xstate`,
`mclk_last_tick` and `last_xpos`. -/
structure GenState where
  m_xstate : TState
  mclk_last_tick : ℚ
  last_xpos : bbtpos
deriving DecidableEq, Repr

/-- Initial generator state: `m_xstate = JackTransportStopped`,
`mclk_last_tick = 0.0`, `last_xpos` zeroed by `memset`. -/
def initState : GenState := ⟨.Stopped, 0, ⟨false, 0, 0, 0, 0⟩⟩

/-- The tempo-selection block of `process` ("calculate clock tick interval"):
returns `samples_per_beat` together with the effective `bbt_offset`, or `none`
when no tempo source is available (the C code returns 0 from the callback). -/
def calc_spb (cfg : Config) (xpos : Pos) : Option (ℚ × Nat) :=
  if cfg.force_bpm = true ∧ 0 < cfg.user_bpm then
    some ((xpos.frame_rate : ℚ) * 60 / cfg.user_bpm, 0)
  else if xpos.validBBT = true then
    some ((xpos.frame_rate : ℚ) * 60 / xpos.beats_per_minute,
      if xpos.validBBTOffset = true then xpos.bbt_offset else 0)
  else if 0 < cfg.user_bpm then
    some ((xpos.frame_rate : ℚ) * 60 / cfg.user_bpm, 0)
  else none

/-- The effective clock tick interval for one cycle, or `0` when no tempo
source is available (`quarter_notes_per_beat = 1.0`). -/
def ctiOf (cfg : Config) (xpos : Pos) : ℚ :=
  match calc_spb cfg xpos with
  | some (spb, _) => spb / 24
  | none => 0

/-- The `while(1)` tick-scheduling loop at the end of `process`, with explicit
fuel (the C loop is unbounded; it exits via the `break` when the next tick
falls beyond this cycle).  Returns the emitted clock events and the final
`mclk_last_tick`. -/
def tickLoop (cti : ℚ) (frame bbtOff nframes : Nat) :
    Nat → ℚ → List Ev × ℚ
  | 0, lastTick => ([], lastTick)
  | fuel + 1, lastTick =>
    let next_tick := lastTick + cti
    let off : Int := round next_tick - (frame : Int) - (bbtOff : Int)
    if (nframes : Int) ≤ off then ([], lastTick)
    else
      let r := tickLoop cti frame bbtOff nframes fuel next_tick
      (if 0 ≤ off then ⟨off.toNat, [MIDI_RT_CLOCK]⟩ :: r.1 else r.1, r.2)

/-- The "send position updates if stopped and located" block at the top of
`process`. -/
def posUpdateEvs (cfg : Config) (xstate : TState) (xpos : Pos) (st : GenState) :
    List Ev :=
  if xstate = .Stopped ∧ st.m_xstate = .Stopped ∧ 0 < pos_changed st.last_xpos xpos
  then send_pos_message cfg.msg_filter xpos else []

/-- The "send RT messages start/stop/continue" switch of `process`, executed
when `xstate != m_xstate`, including the "initial beat tick".  In the C
switch the `JackTransportRolling` case falls through to
`JackTransportStarting`; both break early when the previous state was
`Starting`. -/
def transitionEvs (cfg : Config) (xstate : TState) (xpos : Pos)
    (m_xstate : TState) : List Ev :=
  (match xstate with
    | .Stopped =>
      (if cfg.msg_filter &&& MSG_NO_TRANSPORT = 0 then [⟨0, [MIDI_RT_STOP]⟩] else [])
        ++ send_pos_message cfg.msg_filter xpos
    | .Rolling | .Starting =>
      if m_xstate = .Starting then []
      else if xpos.frame = 0 then
        (if cfg.msg_filter &&& MSG_NO_TRANSPORT = 0 then [⟨0, [MIDI_RT_START]⟩] else [])
      else
        (if cfg.msg_filter &&& MSG_NO_TRANSPORT = 0 then [⟨0, [MIDI_RT_CONTINUE]⟩] else []))
  ++ (if xstate = .Rolling ∧ cfg.msg_filter &&& MSG_NO_CLOCK = 0
      then [⟨0, [MIDI_RT_CLOCK]⟩] else [])

/-- The tail of `process`: the two early returns (not rolling with
`MSG_NO_CONT_CLOCK`, or `MSG_NO_CLOCK`), the tempo selection and the tick
scheduling loop, given the current `mclk_last_tick`. -/
def schedTicks (cfg : Config) (fuel nframes : Nat) (xstate : TState)
    (xpos : Pos) (mclk : ℚ) : List Ev × ℚ :=
  if xstate ≠ .Rolling ∧ cfg.msg_filter &&& MSG_NO_CONT_CLOCK ≠ 0 then ([], mclk)
  else if cfg.msg_filter &&& MSG_NO_CLOCK ≠ 0 then ([], mclk)
  else
    match calc_spb cfg xpos with
    | none => ([], mclk)
    | some (spb, bbtOff) => tickLoop (spb / 24) xpos.frame bbtOff nframes fuel mclk

/-- The `process` JACK callback of the generator (with `client_state = Run`):
consumes one transport snapshot, returns the events written to the port
buffer (in emission order) and the updated persistent state.  On a state
edge `mclk_last_tick` is set to `xpos.frame` and `m_xstate` to the observed
state before the scheduler runs. -/
def process (cfg : Config) (fuel nframes : Nat) (xstate : TState) (xpos : Pos)
    (st : GenState) : List Ev × GenState :=
  let posEvs := posUpdateEvs cfg xstate xpos st
  let lx := remember_pos st.last_xpos xpos
  let changed := xstate ≠ st.m_xstate
  let transEvs := if changed then transitionEvs cfg xstate xpos st.m_xstate else []
  let mclk1 := if changed then (xpos.frame : ℚ) else st.mclk_last_tick
  let mx := if changed then xstate else st.m_xstate
  let r := schedTicks cfg fuel nframes xstate xpos mclk1
  (posEvs ++ transEvs ++ r.1, ⟨mx, r.2, lx⟩)

/-- Run the generator over a sequence of per-cycle snapshots; each emitted
event is paired with the snapshot's cycle-start frame, so that
`frame + ev.time` is the event's absolute sample time. -/
def runGen (cfg : Config) (fuel nframes : Nat) :
    GenState → List (TState × Pos) → List (Nat × Ev) × GenState
  | st, [] => ([], st)
  | st, (xs, xp) :: rest =>
    let r := process cfg fuel nframes xs xp st
    let rr := runGen cfg fuel nframes r.2 rest
    ((r.1.map fun e => (xp.frame, e)) ++ rr.1, rr.2)

/-- Absolute sample times of the emitted clock (`0xF8`) events of a run. -/
def clockTimes (out : List (Nat × Ev)) : List Nat :=
  (out.filter fun p => p.2.bytes = [MIDI_RT_CLOCK]).map fun p => p.1 + p.2.time

/-- Number of events in a cycle's output consisting of the single byte `b`. -/
def countByte (evs : List Ev) (b : Nat) : Nat :=
  (evs.filter fun e => e.bytes = [b]).length

/-- Number of `Start`/`Continue` messages in a cycle's output. -/
def countSC (evs : List Ev) : Nat :=
  countByte evs MIDI_RT_START + countByte evs MIDI_RT_CONTINUE

/-- Number of `Start`/`Continue` messages in a whole run's output. -/
def countSCRun (out : List (Nat × Ev)) : Nat :=
  countSC (out.map Prod.snd)

/-- Number of `Stop` messages in a whole run's output. -/
def countStopRun (out : List (Nat × Ev)) : Nat :=
  countByte (out.map Prod.snd) MIDI_RT_STOP

/-! ### Scenario builders for the generator claims -/

/-- A transport snapshot with a valid BBT tempo source at tempo `T`,
sample rate `R` and absolute frame `f` (tempo map 4/4, 1920 ticks/beat, at
the origin). -/
def bbtSnap (R : Nat) (T : ℚ) (f : Nat) : Pos :=
  { validBBT := true, validBBTOffset := false, bar := 1, beat := 1, tick := 0,
    bar_start_tick := 0, beats_per_bar := 4, ticks_per_beat := 1920,
    beats_per_minute := T, frame := f, frame_rate := R, bbt_offset := 0 }

/-- A snapshot with no tempo source (no valid BBT information). -/
def noBBTSnap (R : Nat) (f : Nat) : Pos :=
  { validBBT := false, validBBTOffset := false, bar := 0, beat := 0, tick := 0,
    bar_start_tick := 0, beats_per_bar := 0, ticks_per_beat := 0,
    beats_per_minute := 0, frame := f, frame_rate := R, bbt_offset := 0 }

/-- The cycle sequence of the C1 scenario: one `Stopped` cycle at frame 0,
then `N` `Rolling` cycles at constant tempo `T` and rate `R`, the transport
frame advancing by `nframes` per cycle from 0. -/
def c1cycles (R : Nat) (T : ℚ) (nframes N : Nat) : List (TState × Pos) :=
  (.Stopped, bbtSnap R T 0) ::
    (List.range N).map fun i => (.Rolling, bbtSnap R T (i * nframes))

/-! ### Transition counting for claim C2 -/

/-- Number of transitions of the observed state from `Stopped` to `Rolling`,
possibly passing through `Starting` across several cycles, as described by
the claim.  `prev` is the previously observed state and `origin` the most
recent non-`Starting` state (both `Stopped` initially). -/
def s2rCount (prev origin : TState) : List TState → Nat
  | [] => 0
  | s :: rest =>
    (if s = .Rolling ∧ prev ≠ .Rolling ∧ origin = .Stopped then 1 else 0)
      + s2rCount s (if s = .Starting then origin else s) rest

/-- Number of transitions of the observed state into `Stopped`. -/
def intoStoppedCount (prev : TState) : List TState → Nat
  | [] => 0
  | s :: rest =>
    (if s = .Stopped ∧ prev ≠ .Stopped then 1 else 0) + intoStoppedCount s rest

/-- Number of observed edges on which the code emits a `Start`/`Continue`
message: entries into `Starting` or `Rolling` whose previous state is
neither the same state nor `Starting`. -/
def scEdgeCount (prev : TState) : List TState → Nat
  | [] => 0
  | s :: rest =>
    (if (s = .Rolling ∨ s = .Starting) ∧ s ≠ prev ∧ prev ≠ .Starting then 1 else 0)
      + scEdgeCount s rest

end JackMidiClock

namespace JackMclkDump

open JackMidiClock (Ev)

/-- An entry of the analyzer's ring buffer (`typedef struct { uint8_t msg;
unsigned long long int tme; } timenfo`). -/
structure timenfo where
  msg : Nat
  tme : Nat
deriving DecidableEq, Repr

/-- `jack_ringbuffer_write` guarded by `jack_ringbuffer_write_space`: append
only when the bounded queue has room. -/
def pushRB (cap : Nat) (q : List timenfo) (t : timenfo) : List timenfo :=
  if q.length < cap then q ++ [t] else q

/-- `process_jmidi_event`: queue a timestamped entry for each single-byte
`0xF8` clock message, with absolute time `monotonic_cnt + ev->time`. -/
def process_jmidi_event (cap : Nat) (mfcnt : Nat) (ev : Ev) (q : List timenfo) :
    List timenfo :=
  if ev.bytes = [0xF8] then pushRB cap q ⟨0xF8, mfcnt + ev.time⟩ else q

/-- One invocation of the analyzer's `process` callback: feed every event of
the cycle to `process_jmidi_event`, then advance `monotonic_cnt` by
`nframes`. -/
def analyzerCycle (cap : Nat) (cnt : Nat) (nframes : Nat) (evs : List Ev)
    (q : List timenfo) : List timenfo × Nat :=
  (evs.foldl (fun q e => process_jmidi_event cap cnt e q) q, cnt + nframes)

/-- Run the analyzer's producer over a list of cycles (each a cycle size
paired with that cycle's incoming events), starting from counter `cnt` and
queue `q`. -/
def analyzerRun (cap : Nat) : Nat → List (Nat × List Ev) → List timenfo →
    List timenfo × Nat
  | cnt, [], q => (q, cnt)
  | cnt, (nframes, evs) :: rest, q =>
    let r := analyzerCycle cap cnt nframes evs q
    analyzerRun cap r.2 rest r.1

/-- 64-bit wrapping subtraction, as performed on the
`unsigned long long` timestamps in the consumer. -/
def u64sub (a b : Nat) : Nat := (a + (2 ^ 64 - b % 2 ^ 64)) % 2 ^ 64

/-- One consumer report: the BPM computed from the previous entry `pt` and
the current entry `t` (`samples_per_quarter_note = (t.tme - pt.tme) * 24.0`,
`bpm = j_samplerate * 60.0 / samples_per_quarter_note`), with the entry's
absolute timestamp. -/
def bpmReport (rate : ℚ) (pt t : timenfo) : ℚ × Nat :=
  ((rate * 60) / ((u64sub t.tme pt.tme : ℚ) * 24), t.tme)

/-- The consumer loop of `main`: drain the queued entries in order, printing
a BPM report for each `0xF8` entry against the previous entry (`pt`), which
is updated after every entry regardless of its message byte. -/
def consume (rate : ℚ) : timenfo → List timenfo → List (ℚ × Nat)
  | _, [] => []
  | pt, t :: rest =>
    (if t.msg = 0xF8 then [bpmReport rate pt t] else []) ++ consume rate t rest

/-- The zero-initialized previous-entry record (`memset(&pt, 0, ...)`). -/
def pt0 : timenfo := ⟨0, 0⟩

/-- Cycle-start sample counter of the `i`-th cycle fed to the analyzer:
the sum of the sizes of the preceding cycles. -/
def cycleStart (cycles : List (Nat × List Ev)) (i : Nat) : Nat :=
  ((cycles.take i).map Prod.fst).sum

end JackMclkDump

namespace JackMidiClock

/-! ### Basic lemmas about the embedded definitions -/

theorem ratTrunc_intCast (n : ℤ) : ratTrunc (n : ℚ) = n := by
  unfold ratTrunc
  split <;> simp

theorem ratTrunc_of_nonneg {q : ℚ} (h : 0 ≤ q) : ratTrunc q = ⌊q⌋ := by
  unfold ratTrunc
  rw [if_neg (not_lt.mpr h)]

/-- Under the claims' hypothesis that the bar/beat part of the position
formula is integral, `bcnt` is the spec's count formula. -/
theorem bcnt_eq (xpos : Pos) (m : ℤ)
    (hm : ((xpos.bar : ℚ) - 1) * xpos.beats_per_bar = (m : ℚ)) :
    bcnt xpos = 4 * (m + xpos.beat - 1) + ⌊4 * (xpos.tick : ℚ) / xpos.ticks_per_beat⌋ := by
  unfold bcnt
  rw [hm]
  have h : (4 * ((m : ℚ) + ((xpos.beat : ℚ) - 1))
        + (⌊4 * (xpos.tick : ℚ) / xpos.ticks_per_beat⌋ : ℚ))
      = ((4 * (m + xpos.beat - 1) + ⌊4 * (xpos.tick : ℚ) / xpos.ticks_per_beat⌋ : ℤ) : ℚ) := by
    push_cast
    ring
  rw [h, ratTrunc_intCast]

theorem countByte_append (a b : List Ev) (c : Nat) :
    countByte (a ++ b) c = countByte a c + countByte b c := by
  simp [countByte, List.filter_append]

theorem countSC_append (a b : List Ev) :
    countSC (a ++ b) = countSC a + countSC b := by
  simp [countSC, countByte_append]
  omega

theorem countByte_eq_zero {evs : List Ev} {c : Nat}
    (h : ∀ e ∈ evs, e.bytes ≠ [c]) : countByte evs c = 0 := by
  simp only [countByte, List.length_eq_zero]
  exact List.filter_eq_nil_iff.mpr (by intro e he; simpa using h e he)

theorem tickLoop_bytes (cti : ℚ) (f b n : Nat) :
    ∀ fuel lastTick e, e ∈ (tickLoop cti f b n fuel lastTick).1 →
      e.bytes = [MIDI_RT_CLOCK] := by
  intro fuel
  induction fuel with
  | zero => intro lastTick e he; simp [tickLoop] at he
  | succ k ih =>
    intro lastTick e he
    rw [tickLoop] at he
    split at he
    · simp at he
    · split at he
      · rcases List.mem_cons.mp he with h | h
        · rw [h]
        · exact ih _ e h
      · exact ih _ e he

theorem tickLoop_final (cti : ℚ) (f b n : Nat) :
    ∀ fuel lastTick, ∃ m : ℕ,
      (tickLoop cti f b n fuel lastTick).2 = lastTick + m * cti := by
  intro fuel
  induction fuel with
  | zero => intro lastTick; exact ⟨0, by simp [tickLoop]⟩
  | succ k ih =>
    intro lastTick
    rw [tickLoop]
    split
    · exact ⟨0, by simp⟩
    · obtain ⟨m, hm⟩ := ih (lastTick + cti)
      refine ⟨m + 1, ?_⟩
      split <;> simp only [hm] <;> push_cast <;> ring

/-- Every clock event scanned by the loop is emitted at the rounded absolute
position of a grid point `lastTick + (j+1)·cti`; its in-cycle offset plus
`frame + bbt_offset` recovers that rounded value. -/
theorem tickLoop_times (cti : ℚ) (f b n : Nat) :
    ∀ fuel lastTick e, e ∈ (tickLoop cti f b n fuel lastTick).1 →
      ∃ j : ℕ, ((e.time : ℤ) + f + b = round (lastTick + (j + 1) * cti)) := by
  intro fuel
  induction fuel with
  | zero => intro lastTick e he; simp [tickLoop] at he
  | succ k ih =>
    intro lastTick e he
    rw [tickLoop] at he
    split at he
    · simp at he
    · rename_i hlt
      split at he
      · rename_i hge
        rcases List.mem_cons.mp he with h | h
        · refine ⟨0, ?_⟩
          rw [h]
          simp only []
          rw [Int.toNat_of_nonneg hge]
          push_cast
          ring
        · obtain ⟨j, hj⟩ := ih _ e h
          exact ⟨j + 1, by rw [hj]; congr 1; push_cast; ring⟩
      · obtain ⟨j, hj⟩ := ih _ e he
        exact ⟨j + 1, by rw [hj]; congr 1; push_cast; ring⟩

/-- A snapshot with a valid BBT position (`bar`, `beat`, `tick`) under a fixed
meter `beats_per_bar = bpb`, `ticks_per_beat = tpb`. -/
def mkbbt (bpb tpb : ℚ) (bar beat tick : ℤ) : Pos :=
  { validBBT := true, validBBTOffset := false, bar := bar, beat := beat,
    tick := tick, bar_start_tick := 0, beats_per_bar := bpb,
    ticks_per_beat := tpb, beats_per_minute := 120, frame := 0,
    frame_rate := 48000, bbt_offset := 0 }

/-- Closed form of `bcnt` on an in-range BBT position: the truncation on
assignment to `int` is a floor, and the integral beat part moves out of it. -/
theorem bcnt_mkbbt (bpb tpb : ℚ) (bar beat tick : ℤ)
    (hbpb : 0 ≤ bpb) (htpb : 0 < tpb) (hbar : 1 ≤ bar) (hbeat : 1 ≤ beat)
    (htick : 0 ≤ tick) :
    bcnt (mkbbt bpb tpb bar beat tick)
      = ⌊4 * ((bar : ℚ) - 1) * bpb⌋ + 4 * (beat - 1) + ⌊4 * (tick : ℚ) / tpb⌋ := by
  have hb1 : (0:ℚ) ≤ (bar : ℚ) - 1 := by
    have : (1:ℚ) ≤ (bar : ℚ) := by exact_mod_cast hbar
    linarith
  have hb2 : (0:ℚ) ≤ (beat : ℚ) - 1 := by
    have : (1:ℚ) ≤ (beat : ℚ) := by exact_mod_cast hbeat
    linarith
  have ht0 : (0:ℚ) ≤ 4 * (tick : ℚ) / tpb := by
    apply div_nonneg _ htpb.le
    have : (0:ℚ) ≤ (tick : ℚ) := by exact_mod_cast htick
    linarith
  have hF0 : (0:ℤ) ≤ ⌊4 * (tick : ℚ) / tpb⌋ := Int.le_floor.mpr (by exact_mod_cast ht0)
  have hF0q : (0:ℚ) ≤ (⌊4 * (tick : ℚ) / tpb⌋ : ℚ) := by exact_mod_cast hF0
  unfold bcnt mkbbt
  simp only []
  rw [ratTrunc_of_nonneg (by nlinarith)]
  have hsplit : 4 * (((bar : ℚ) - 1) * bpb + ((beat : ℚ) - 1))
        + (⌊4 * (tick : ℚ) / tpb⌋ : ℚ)
      = (4 * ((bar : ℚ) - 1) * bpb)
        + ((4 * (beat - 1) + ⌊4 * (tick : ℚ) / tpb⌋ : ℤ) : ℚ) := by
    push_cast
    ring
  rw [hsplit, Int.floor_add_int]
  ring

end JackMidiClock

/-! ## Claim theorems -/

namespace JackMidiClock

/-- **C7.** For every snapshot with valid BBT fields and position messages not
suppressed, the song-position message encodes
`count = 4*((bar-1)*beatsPerBar + (beat-1)) + floor(4*tick/ticksPerBeat)`
as three bytes `0xF2`, `count % 128` (LSB), `count / 128 % 128` (MSB), each
data byte below `0x80`; if the computed count falls outside `[0, 16384)` no
song-position message at all is emitted that cycle (neither wrapped nor
clamped).  The hypothesis `hm` states that the bar/beat part of the formula is
integral, so that the claim's count is well defined. -/
theorem C7_song_position_encoding (msg_filter : Nat) (xpos : Pos) (m n : ℤ)
    (hf : msg_filter &&& MSG_NO_POSITION = 0)
    (hv : xpos.validBBT = true)
    (hm : ((xpos.bar : ℚ) - 1) * xpos.beats_per_bar = (m : ℚ))
    (hn : n = 4 * (m + xpos.beat - 1) + ⌊4 * (xpos.tick : ℚ) / xpos.ticks_per_beat⌋) :
    (0 ≤ n → n < 16384 →
      send_pos_message msg_filter xpos
        = [⟨0, [0xF2, n.toNat % 128, n.toNat / 128 % 128]⟩]
      ∧ n.toNat % 128 < 0x80 ∧ n.toNat / 128 % 128 < 0x80)
    ∧ ((n < 0 ∨ 16384 ≤ n) → send_pos_message msg_filter xpos = []) := by
  have hb : bcnt xpos = n := by rw [hn]; exact bcnt_eq xpos m hm
  constructor
  · intro h0 h1
    unfold send_pos_message
    rw [if_neg (by simp [hf]), if_neg (by simp [hv])]
    simp only [hb]
    rw [if_neg (by omega)]
    have e1 : n.toNat &&& 0x7F = n.toNat % 128 := Nat.and_pow_two_sub_one_eq_mod _ 7
    have e2 : (n.toNat >>> 7) &&& 0x7F = n.toNat / 128 % 128 := by
      rw [Nat.and_pow_two_sub_one_eq_mod _ 7, Nat.shiftRight_eq_div_pow]
    rw [e1, e2]
    exact ⟨rfl, Nat.mod_lt _ (by norm_num), Nat.mod_lt _ (by norm_num)⟩
  · intro h
    unfold send_pos_message
    rw [if_neg (by simp [hf]), if_neg (by simp [hv])]
    simp only [hb]
    rw [if_pos (by omega)]

/-- Witness for C7: bar 3, beat 2, tick 960 in 4/4 at 1920 ticks per beat
encodes as count 38 = `0xF2 0x26 0x00`. -/
theorem C7_song_position_encoding_witness :
    send_pos_message 0 (mkbbt 4 1920 3 2 960) = [⟨0, [0xF2, 38, 0]⟩] := by
  have h := C7_song_position_encoding 0 (mkbbt 4 1920 3 2 960) 8 38
    (by norm_num) rfl (by norm_num [mkbbt]) (by norm_num [mkbbt])
  have h2 := (h.1 (by norm_num) (by norm_num)).1
  simpa using h2

/-- **C8, counterexample.** With `beatsPerBar = 4`, `ticksPerBeat = 1920`
(fixed), the positions `(bar,beat,tick) = (1,1,0)` and `(1,1,1)` both lie in
the claim's domain and are in strict lexicographic order, yet the computed
14-bit counts are equal (both 0): the count does **not** strictly increase
with `(bar,beat,tick)` in lexicographic order. -/
theorem C8_counterexample :
    bcnt (mkbbt 4 1920 1 1 0) = 0 ∧ bcnt (mkbbt 4 1920 1 1 1) = 0 ∧
      ¬ bcnt (mkbbt 4 1920 1 1 0) < bcnt (mkbbt 4 1920 1 1 1) := by
  have h0 : bcnt (mkbbt 4 1920 1 1 0) = 0 := by
    norm_num [bcnt, mkbbt, ratTrunc]
  have h1 : bcnt (mkbbt 4 1920 1 1 1) = 0 := by
    norm_num [bcnt, mkbbt, ratTrunc]
  exact ⟨h0, h1, by omega⟩

/-- **C8, amended.** With `beatsPerBar` and `ticksPerBeat` held fixed, for all
`bar ∈ [1,999]`, `beat ∈ [1,beatsPerBar]`, `tick ∈ [0,ticksPerBeat)`, the
computed 14-bit beat count is nonnegative and monotonically non-decreasing
with `(bar,beat,tick)` in lexicographic order — strictly increasing whenever
`bar` or `beat` increases — and whenever the count is below 16384 the message
is emitted, while once the count exceeds the range the message is omitted. -/
theorem C8_count_monotone (bpb tpb : ℚ) (bar beat tick bar' beat' tick' : ℤ)
    (hbpb : 1 ≤ bpb) (htpb : 0 < tpb)
    (hbar1 : 1 ≤ bar) (hbar9 : bar ≤ 999)
    (hbeat1 : 1 ≤ beat) (hbeatle : (beat : ℚ) ≤ bpb)
    (htick0 : 0 ≤ tick) (htickl : (tick : ℚ) < tpb)
    (hbar1' : 1 ≤ bar') (hbar9' : bar' ≤ 999)
    (hbeat1' : 1 ≤ beat') (hbeatle' : (beat' : ℚ) ≤ bpb)
    (htick0' : 0 ≤ tick') (htickl' : (tick' : ℚ) < tpb) :
    0 ≤ bcnt (mkbbt bpb tpb bar beat tick)
    ∧ (bar < bar' →
        bcnt (mkbbt bpb tpb bar beat tick) < bcnt (mkbbt bpb tpb bar' beat' tick'))
    ∧ (bar = bar' → beat < beat' →
        bcnt (mkbbt bpb tpb bar beat tick) < bcnt (mkbbt bpb tpb bar' beat' tick'))
    ∧ (bar = bar' → beat = beat' → tick ≤ tick' →
        bcnt (mkbbt bpb tpb bar beat tick) ≤ bcnt (mkbbt bpb tpb bar' beat' tick'))
    ∧ (bcnt (mkbbt bpb tpb bar beat tick) < 16384 →
        send_pos_message 0 (mkbbt bpb tpb bar beat tick) ≠ [])
    ∧ (16384 ≤ bcnt (mkbbt bpb tpb bar beat tick) →
        send_pos_message 0 (mkbbt bpb tpb bar beat tick) = []) := by
  have h0 : (0:ℚ) ≤ bpb := by linarith
  have hc := bcnt_mkbbt bpb tpb bar beat tick h0 htpb hbar1 hbeat1 htick0
  have hc' := bcnt_mkbbt bpb tpb bar' beat' tick' h0 htpb hbar1' hbeat1' htick0'
  -- floor facts for the unprimed position
  have hA_le : (⌊4 * ((bar : ℚ) - 1) * bpb⌋ : ℚ) ≤ 4 * ((bar : ℚ) - 1) * bpb :=
    Int.floor_le _
  have hA0 : (0:ℤ) ≤ ⌊4 * ((bar : ℚ) - 1) * bpb⌋ := by
    apply Int.le_floor.mpr
    have h1 : (1:ℚ) ≤ (bar : ℚ) := by exact_mod_cast hbar1
    push_cast
    nlinarith
  have htq : (0:ℚ) ≤ (tick : ℚ) := by exact_mod_cast htick0
  have htq' : (0:ℚ) ≤ (tick' : ℚ) := by exact_mod_cast htick0'
  have hF0 : (0:ℤ) ≤ ⌊4 * (tick : ℚ) / tpb⌋ :=
    Int.le_floor.mpr (by push_cast; exact div_nonneg (by linarith) htpb.le)
  have hF0' : (0:ℤ) ≤ ⌊4 * (tick' : ℚ) / tpb⌋ :=
    Int.le_floor.mpr (by push_cast; exact div_nonneg (by linarith) htpb.le)
  have hFle : ⌊4 * (tick : ℚ) / tpb⌋ ≤ 3 := by
    have : 4 * (tick : ℚ) / tpb < 4 := by
      rw [div_lt_iff₀ htpb]
      nlinarith
    have h4 : ⌊4 * (tick : ℚ) / tpb⌋ < 4 := Int.floor_lt.mpr (by exact_mod_cast this)
    omega
  refine ⟨?_, ?_, ?_, ?_, ?_, ?_⟩
  · rw [hc]; omega
  · intro hlt
    rw [hc, hc']
    have hA'_gt : 4 * ((bar' : ℚ) - 1) * bpb - 1 < (⌊4 * ((bar' : ℚ) - 1) * bpb⌋ : ℚ) := by
      have := Int.lt_floor_add_one (4 * ((bar' : ℚ) - 1) * bpb)
      linarith
    have hbb : (bar : ℚ) ≤ (bar' : ℚ) - 1 := by
      have h1 : bar + 1 ≤ bar' := hlt
      have h2 : ((bar : ℚ) + 1) ≤ (bar' : ℚ) := by exact_mod_cast h1
      linarith
    have hmul : (bar : ℚ) * bpb ≤ ((bar' : ℚ) - 1) * bpb :=
      mul_le_mul_of_nonneg_right hbb h0
    have hFq : (⌊4 * (tick : ℚ) / tpb⌋ : ℚ) ≤ 3 := by exact_mod_cast hFle
    have hF0q' : (0:ℚ) ≤ (⌊4 * (tick' : ℚ) / tpb⌋ : ℚ) := by exact_mod_cast hF0'
    have hbe1' : (1:ℚ) ≤ (beat' : ℚ) := by exact_mod_cast hbeat1'
    have goalq : (⌊4 * ((bar : ℚ) - 1) * bpb⌋ : ℚ) + 4 * ((beat:ℚ) - 1)
          + (⌊4 * (tick : ℚ) / tpb⌋ : ℚ)
        < (⌊4 * ((bar' : ℚ) - 1) * bpb⌋ : ℚ) + 4 * ((beat':ℚ) - 1)
          + (⌊4 * (tick' : ℚ) / tpb⌋ : ℚ) := by
      nlinarith
    exact_mod_cast goalq
  · intro hbb hbe
    subst hbb
    rw [hc, hc']
    omega
  · intro hbb hbe htt
    subst hbb; subst hbe
    rw [hc, hc']
    have h4t : 4 * (tick : ℚ) ≤ 4 * (tick' : ℚ) := by
      have : (tick : ℚ) ≤ (tick' : ℚ) := by exact_mod_cast htt
      linarith
    have hdiv : 4 * (tick : ℚ) / tpb ≤ 4 * (tick' : ℚ) / tpb :=
      (div_le_div_iff_of_pos_right htpb).mpr h4t
    have hF : ⌊4 * (tick : ℚ) / tpb⌋ ≤ ⌊4 * (tick' : ℚ) / tpb⌋ :=
      Int.floor_le_floor hdiv
    omega
  · intro hlt
    have hnn : 0 ≤ bcnt (mkbbt bpb tpb bar beat tick) := by rw [hc]; omega
    unfold send_pos_message
    rw [if_neg (by norm_num), if_neg (by simp [mkbbt]), if_neg (by omega)]
    simp
  · intro hge
    unfold send_pos_message
    rw [if_neg (by norm_num), if_neg (by simp [mkbbt]), if_pos (Or.inr hge)]

/-- Witness for the amended C8: in 4/4 at 1920 ticks/beat the count at
bar 1 is nonnegative and strictly below the count at bar 2. -/
theorem C8_count_monotone_witness :
    0 ≤ bcnt (mkbbt 4 1920 1 1 0) ∧
      bcnt (mkbbt 4 1920 1 1 0) < bcnt (mkbbt 4 1920 2 1 0) := by
  have h := C8_count_monotone 4 1920 1 1 0 2 1 0 (by norm_num) (by norm_num)
    (by norm_num) (by norm_num) (by norm_num) (by norm_num) (by norm_num)
    (by norm_num) (by norm_num) (by norm_num) (by norm_num) (by norm_num)
    (by norm_num) (by norm_num)
  exact ⟨h.1, h.2.1 (by norm_num)⟩

end JackMidiClock

namespace JackMclkDump

open JackMidiClock (Ev)

/-! ### Lemmas about the analyzer -/

theorem mem_pushRB {cap : Nat} {q : List timenfo} {t entry : timenfo}
    (h : entry ∈ pushRB cap q t) : entry ∈ q ∨ entry = t := by
  unfold pushRB at h
  split at h
  · rcases List.mem_append.mp h with h1 | h1
    · exact Or.inl h1
    · exact Or.inr (by simpa using h1)
  · exact Or.inl h

theorem mem_process_jmidi_event {cap cnt : Nat} {ev : Ev} {q : List timenfo}
    {entry : timenfo} (h : entry ∈ process_jmidi_event cap cnt ev q) :
    entry ∈ q ∨ (ev.bytes = [0xF8] ∧ entry = ⟨0xF8, cnt + ev.time⟩) := by
  unfold process_jmidi_event at h
  split at h
  · rcases mem_pushRB h with h1 | h1
    · exact Or.inl h1
    · rename_i hb
      exact Or.inr ⟨hb, h1⟩
  · exact Or.inl h

theorem mem_foldl_push {cap cnt : Nat} :
    ∀ (evs : List Ev) (q : List timenfo) (entry : timenfo),
      entry ∈ evs.foldl (fun q e => process_jmidi_event cap cnt e q) q →
      entry ∈ q ∨ ∃ e ∈ evs, e.bytes = [0xF8] ∧ entry = ⟨0xF8, cnt + e.time⟩ := by
  intro evs
  induction evs with
  | nil => intro q entry h; exact Or.inl h
  | cons e rest ih =>
    intro q entry h
    rw [List.foldl_cons] at h
    rcases ih _ entry h with h1 | ⟨e', he', hb, heq⟩
    · rcases mem_process_jmidi_event h1 with h2 | ⟨hb, heq⟩
      · exact Or.inl h2
      · exact Or.inr ⟨e, List.mem_cons_self _ _, hb, heq⟩
    · exact Or.inr ⟨e', List.mem_cons_of_mem _ he', hb, heq⟩

theorem cycleStart_zero (cycles : List (Nat × List Ev)) : cycleStart cycles 0 = 0 := rfl

theorem cycleStart_succ (c : Nat × List Ev) (rest : List (Nat × List Ev)) (i : Nat) :
    cycleStart (c :: rest) (i + 1) = c.1 + cycleStart rest i := by
  simp [cycleStart, List.take_succ_cons]

/-- Soundness of the analyzer's producer: every queued entry stems from a
single-byte `0xF8` event of some cycle, timestamped with that cycle's start
counter plus the event's in-cycle offset. -/
theorem analyzerRun_sound (cap : Nat) :
    ∀ (cycles : List (Nat × List Ev)) (cnt : Nat) (q : List timenfo)
      (entry : timenfo), entry ∈ (analyzerRun cap cnt cycles q).1 →
      entry ∈ q ∨ ∃ i, i < cycles.length ∧ ∃ e ∈ (cycles.getD i (0, [])).2,
        e.bytes = [0xF8] ∧ entry.msg = 0xF8 ∧
        entry.tme = cnt + cycleStart cycles i + e.time := by
  intro cycles
  induction cycles with
  | nil => intro cnt q entry h; exact Or.inl h
  | cons c rest ih =>
    obtain ⟨nf, evs⟩ := c
    intro cnt q entry h
    rw [analyzerRun] at h
    rcases ih _ _ entry h with h1 | ⟨i, hi, e, he, hb, hmsg, htme⟩
    · rcases mem_foldl_push evs q entry (by simpa [analyzerCycle] using h1) with
        h2 | ⟨e, he, hb, heq⟩
      · exact Or.inl h2
      · refine Or.inr ⟨0, by simp, e, by simpa using he, hb, ?_, ?_⟩
        · rw [heq]
        · rw [heq, cycleStart_zero]
          simp
    · refine Or.inr ⟨i + 1, by simpa using hi, e, by simpa using he, hb, hmsg, ?_⟩
      rw [htme, cycleStart_succ]
      simp [analyzerCycle]
      ring

theorem u64sub_eq_sub {a b : Nat} (hle : b ≤ a) (ha : a < 2 ^ 64) :
    u64sub a b = a - b := by
  unfold u64sub
  have hb : b < 2 ^ 64 := lt_of_le_of_lt hle ha
  rw [Nat.mod_eq_of_lt hb]
  have h1 : a + (2 ^ 64 - b) = (a - b) + 2 ^ 64 := by omega
  rw [h1, Nat.add_mod_right, Nat.mod_eq_of_lt (by omega)]

/-- The consumer pairs every entry with its predecessor (the zero-initialized
`pt` record in front). -/
theorem consume_eq_zip (rate : ℚ) :
    ∀ (entries : List timenfo) (pt : timenfo),
      (∀ t ∈ entries, t.msg = 0xF8) →
      consume rate pt entries
        = ((pt :: entries).zip entries).map fun pq => bpmReport rate pq.1 pq.2 := by
  intro entries
  induction entries with
  | nil => intro pt h; simp [consume]
  | cons t rest ih =>
    intro pt h
    rw [consume, if_pos (h t (List.mem_cons_self _ _)), List.zip_cons_cons,
      List.map_cons, List.singleton_append, ih t fun u hu => h u (List.mem_cons_of_mem _ hu)]

end JackMclkDump

namespace JackMclkDump

open JackMidiClock (Ev)

/-- **C9.** The analyzer's producer timestamps each received single-byte
`0xF8` clock message with `absoluteSampleTime = cycleStartSampleCounter +
eventOffset`; the consumer pairs each entry with its predecessor and, for
consecutive clock timestamps `t0` then `t1`, reports
`bpm = sampleRate * 60 / (24 * (t1 - t0))`; fed clock bytes at absolute
times 0, 500, 1000 at rate 48000, the report between the first pair is
240 BPM. -/
theorem C9_analyzer_bpm :
    (∀ (cap : Nat) (cycles : List (Nat × List Ev)) (entry : timenfo),
        entry ∈ (analyzerRun cap 0 cycles []).1 →
        ∃ i, i < cycles.length ∧ ∃ e ∈ (cycles.getD i (0, [])).2,
          e.bytes = [0xF8] ∧ entry.msg = 0xF8 ∧
          entry.tme = cycleStart cycles i + e.time)
    ∧ (∀ (rate : ℚ) (pt t : timenfo), pt.tme ≤ t.tme → t.tme < 2 ^ 64 →
        bpmReport rate pt t
          = (rate * 60 / (24 * ((t.tme : ℚ) - (pt.tme : ℚ))), t.tme))
    ∧ (∀ (rate : ℚ) (entries : List timenfo) (pt : timenfo),
        (∀ t ∈ entries, t.msg = 0xF8) →
        consume rate pt entries
          = ((pt :: entries).zip entries).map fun pq => bpmReport rate pq.1 pq.2)
    ∧ (consume 48000 pt0 [⟨0xF8, 0⟩, ⟨0xF8, 500⟩, ⟨0xF8, 1000⟩])[1]?
        = some (240, 500) := by
  refine ⟨?_, ?_, consume_eq_zip, ?_⟩
  · intro cap cycles entry h
    rcases analyzerRun_sound cap cycles 0 [] entry h with h1 | ⟨i, hi, e, he, hb, hmsg, htme⟩
    · simp at h1
    · exact ⟨i, hi, e, he, hb, hmsg, by simpa using htme⟩
  · intro rate pt t hle hlt
    unfold bpmReport
    rw [u64sub_eq_sub hle hlt]
    have hc : ((t.tme - pt.tme : ℕ) : ℚ) = (t.tme : ℚ) - (pt.tme : ℚ) :=
      Nat.cast_sub hle
    rw [hc]
    simp only [Prod.mk.injEq]
    exact ⟨by ring, trivial⟩
  · have h0 : u64sub 0 0 = 0 := by norm_num [u64sub]
    have h1 : u64sub 500 0 = 500 := u64sub_eq_sub (by norm_num) (by norm_num)
    have h2 : u64sub 1000 500 = 500 := u64sub_eq_sub (by norm_num) (by norm_num)
    simp [consume, bpmReport, pt0, h0, h1, h2]
    norm_num

/-- Witness for C9: clock events at offsets 0 and 500 of a single
1024-sample cycle are queued with absolute times 0 and 500. -/
theorem C9_analyzer_bpm_witness :
    (∀ entry ∈ (analyzerRun 20 0 [(1024, [⟨0, [0xF8]⟩, ⟨500, [0xF8]⟩])] []).1,
      entry.msg = 0xF8)
    ∧ bpmReport 48000 ⟨0xF8, 0⟩ ⟨0xF8, 500⟩
        = (48000 * 60 / (24 * ((500 : ℚ) - 0)), 500) := by
  constructor
  · intro entry h
    obtain ⟨i, hi, e, he, hb, hmsg, htme⟩ := C9_analyzer_bpm.1 20 _ entry h
    exact hmsg
  · have h := C9_analyzer_bpm.2.1 48000 ⟨0xF8, 0⟩ ⟨0xF8, 500⟩ (by norm_num) (by norm_num)
    simpa using h

/-- **C10.** The analyzer's consumer does not treat the very first clock
entry as unpaired: with the zero-initialized previous-entry record, the
first `0xF8` entry with timestamp `t` immediately produces a BPM report
computed against an implicit previous timestamp of 0, i.e.
`bpm = sampleRate * 60 / (24 * t)`. -/
theorem C10_first_clock_reported (rate : ℚ) (t : timenfo) (rest : List timenfo)
    (hmsg : t.msg = 0xF8) (hlt : t.tme < 2 ^ 64) :
    (consume rate pt0 (t :: rest)).head?
      = some (rate * 60 / (24 * (t.tme : ℚ)), t.tme) := by
  have hs : u64sub t.tme 0 = t.tme := by
    have h := u64sub_eq_sub (Nat.zero_le t.tme) hlt
    simpa using h
  rw [consume, if_pos hmsg]
  unfold bpmReport pt0
  simp only [hs, List.singleton_append, List.head?_cons, Option.some.injEq,
    Prod.mk.injEq]
  exact ⟨by ring, trivial⟩

/-- Witness for C10: a single first clock entry at absolute time 500 with
sample rate 48000 is immediately reported (in fact at 240 BPM). -/
theorem C10_first_clock_reported_witness :
    (consume 48000 pt0 [⟨0xF8, 500⟩]).head?
      = some (48000 * 60 / (24 * ((500 : ℕ) : ℚ)), 500) :=
  C10_first_clock_reported 48000 ⟨0xF8, 500⟩ [] rfl (by norm_num)

end JackMclkDump

namespace JackMidiClock

/-! ### Decomposition of the process callback -/

theorem process_fst_eq (cfg : Config) (fuel n : Nat) (xs : TState) (xp : Pos)
    (st : GenState) :
    (process cfg fuel n xs xp st).1
      = posUpdateEvs cfg xs xp st
        ++ (if xs ≠ st.m_xstate then transitionEvs cfg xs xp st.m_xstate else [])
        ++ (schedTicks cfg fuel n xs xp
            (if xs ≠ st.m_xstate then (xp.frame : ℚ) else st.mclk_last_tick)).1 := rfl

theorem process_snd_eq (cfg : Config) (fuel n : Nat) (xs : TState) (xp : Pos)
    (st : GenState) :
    (process cfg fuel n xs xp st).2
      = ⟨if xs ≠ st.m_xstate then xs else st.m_xstate,
         (schedTicks cfg fuel n xs xp
           (if xs ≠ st.m_xstate then (xp.frame : ℚ) else st.mclk_last_tick)).2,
         remember_pos st.last_xpos xp⟩ := rfl

/-- After any cycle the stored previous state is the observed state. -/
theorem process_m_xstate (cfg : Config) (fuel n : Nat) (xs : TState) (xp : Pos)
    (st : GenState) : (process cfg fuel n xs xp st).2.m_xstate = xs := by
  rw [process_snd_eq]
  by_cases h : xs = st.m_xstate
  · simp [h]
  · simp [h]

theorem posUpdateEvs_not_stopped {cfg : Config} {xs : TState} {xp : Pos}
    {st : GenState} (h : xs ≠ .Stopped) : posUpdateEvs cfg xs xp st = [] := by
  unfold posUpdateEvs
  rw [if_neg fun hc => h hc.1]

theorem schedTicks_not_rolling {cfg : Config} {fuel n : Nat} {xs : TState}
    {xp : Pos} {mclk : ℚ} (h1 : xs ≠ .Rolling)
    (h2 : cfg.msg_filter &&& MSG_NO_CONT_CLOCK ≠ 0) :
    schedTicks cfg fuel n xs xp mclk = ([], mclk) := by
  unfold schedTicks
  rw [if_pos ⟨h1, h2⟩]

theorem schedTicks_bytes (cfg : Config) (fuel n : Nat) (xs : TState) (xp : Pos)
    (mclk : ℚ) :
    ∀ e ∈ (schedTicks cfg fuel n xs xp mclk).1, e.bytes = [MIDI_RT_CLOCK] := by
  intro e he
  unfold schedTicks at he
  split at he
  · simp at he
  · split at he
    · simp at he
    · split at he
      · simp at he
      · exact tickLoop_bytes _ _ _ _ _ _ e he

theorem countSC_clock_only {evs : List Ev}
    (h : ∀ e ∈ evs, e.bytes = [MIDI_RT_CLOCK]) : countSC evs = 0 := by
  unfold countSC
  rw [countByte_eq_zero (fun e he => by rw [h e he]; simp [MIDI_RT_CLOCK, MIDI_RT_START]),
    countByte_eq_zero (fun e he => by rw [h e he]; simp [MIDI_RT_CLOCK, MIDI_RT_CONTINUE])]

/-- On an edge into `Rolling` or `Starting` from a state other than
`Starting`, with transport messages enabled, the switch emits exactly the
frame-selected `Start`/`Continue` followed by the initial beat tick when the
new state is `Rolling`. -/
theorem transitionEvs_enter (cfg : Config) (xs : TState) (xp : Pos) (m : TState)
    (hxs : xs = .Rolling ∨ xs = .Starting) (hm : m ≠ .Starting)
    (ht : cfg.msg_filter &&& MSG_NO_TRANSPORT = 0) :
    transitionEvs cfg xs xp m
      = [⟨0, [if xp.frame = 0 then MIDI_RT_START else MIDI_RT_CONTINUE]⟩]
        ++ (if xs = .Rolling ∧ cfg.msg_filter &&& MSG_NO_CLOCK = 0
            then [⟨0, [MIDI_RT_CLOCK]⟩] else []) := by
  rcases hxs with h | h <;> subst h <;>
    · unfold transitionEvs
      by_cases hf : xp.frame = 0 <;> simp [hm, hf, ht]

end JackMidiClock

namespace JackMidiClock

/-- **C4.** The per-cycle tempo is selected with priority: forced default BPM
(when the force flag is set and the default is positive, even against a
different authority tempo), else the authority's BBT tempo when valid, else
the positive default as fallback; otherwise the scheduler emits nothing that
cycle and returns without error. -/
theorem C4_tempo_priority :
    (∀ (cfg : Config) (xpos : Pos), cfg.force_bpm = true → 0 < cfg.user_bpm →
      calc_spb cfg xpos = some ((xpos.frame_rate : ℚ) * 60 / cfg.user_bpm, 0))
    ∧ (∀ (cfg : Config) (xpos : Pos), ¬(cfg.force_bpm = true ∧ 0 < cfg.user_bpm) →
        xpos.validBBT = true →
        calc_spb cfg xpos
          = some ((xpos.frame_rate : ℚ) * 60 / xpos.beats_per_minute,
              if xpos.validBBTOffset = true then xpos.bbt_offset else 0))
    ∧ (∀ (cfg : Config) (xpos : Pos), ¬(cfg.force_bpm = true ∧ 0 < cfg.user_bpm) →
        xpos.validBBT = false → 0 < cfg.user_bpm →
        calc_spb cfg xpos = some ((xpos.frame_rate : ℚ) * 60 / cfg.user_bpm, 0))
    ∧ (∀ (cfg : Config) (fuel nframes : Nat) (xpos : Pos) (st : GenState),
        ¬(cfg.force_bpm = true ∧ 0 < cfg.user_bpm) → xpos.validBBT = false →
        ¬ 0 < cfg.user_bpm → st.m_xstate = .Rolling →
        process cfg fuel nframes .Rolling xpos st
          = ([], ⟨.Rolling, st.mclk_last_tick, remember_pos st.last_xpos xpos⟩)) := by
  refine ⟨?_, ?_, ?_, ?_⟩
  · intro cfg xpos h1 h2
    unfold calc_spb
    rw [if_pos ⟨h1, h2⟩]
  · intro cfg xpos h1 h2
    unfold calc_spb
    rw [if_neg h1, if_pos h2]
  · intro cfg xpos h1 h2 h3
    unfold calc_spb
    rw [if_neg h1, if_neg (by simp [h2]), if_pos h3]
  · intro cfg fuel nframes xpos st h1 h2 h3 hst
    have hnone : calc_spb cfg xpos = none := by
      unfold calc_spb
      rw [if_neg h1, if_neg (by simp [h2]), if_neg h3]
    have hsched : ∀ mclk, schedTicks cfg fuel nframes .Rolling xpos mclk = ([], mclk) := by
      intro mclk
      unfold schedTicks
      rw [if_neg (by simp)]
      split
      · rfl
      · rw [hnone]
    have hchanged : ¬ ((.Rolling : TState) ≠ st.m_xstate) := by simp [hst]
    ext1
    · rw [process_fst_eq, if_neg hchanged, posUpdateEvs_not_stopped (by simp),
        if_neg hchanged, hsched]
      simp
    · rw [process_snd_eq, if_neg hchanged, if_neg hchanged, hsched, hst]

/-- Witness for C4: the forced default of 60 BPM wins over an authority
reporting 140 BPM (`samples_per_beat = 48000`). -/
theorem C4_tempo_priority_witness :
    calc_spb ⟨60, true, 0⟩ (bbtSnap 48000 140 0) = some (48000, 0) := by
  have h := C4_tempo_priority.1 ⟨60, true, 0⟩ (bbtSnap 48000 140 0) rfl (by norm_num)
  rw [h]
  norm_num [bbtSnap]

/-- **C6, counterexample.** On the edge from `Rolling` (previous cycle) to
`Starting` (current cycle) at frame 100, with the default configuration
(transport messages enabled), the code emits a `Continue` message — the edge
is not a no-op pass-through. -/
theorem C6_counterexample :
    (process defaultCfg 64 512 .Starting (bbtSnap 48000 120 100)
      ⟨.Rolling, 0, ⟨false, 0, 0, 0, 0⟩⟩).1 = [⟨0, [MIDI_RT_CONTINUE]⟩] := by
  rw [process_fst_eq, posUpdateEvs_not_stopped (by simp),
    if_pos (by simp), schedTicks_not_rolling (by simp) (by decide)]
  rw [transitionEvs_enter _ _ _ _ (Or.inr rfl) (by simp) (by decide)]
  simp [bbtSnap]

/-- **C6, amended.** The no-op pass-through edge is the opposite one: when
the observed state changes from `Starting` in the previous cycle to
`Rolling` in the current cycle, no `Start` and no `Continue` is emitted on
that edge (the coalescing `Stopped → Starting → Rolling` window has already
emitted its one message on entering `Starting`). -/
theorem C6_no_start_continue_on_Starting_to_Rolling (cfg : Config)
    (fuel nframes : Nat) (xpos : Pos) (st : GenState)
    (h : st.m_xstate = .Starting) :
    countSC (process cfg fuel nframes .Rolling xpos st).1 = 0 := by
  rw [process_fst_eq, if_pos (by simp [h]), h]
  rw [countSC_append, countSC_append]
  rw [posUpdateEvs_not_stopped (by simp)]
  have htr : transitionEvs cfg .Rolling xpos .Starting
      = (if cfg.msg_filter &&& MSG_NO_CLOCK = 0 then [⟨0, [MIDI_RT_CLOCK]⟩] else []) := by
    unfold transitionEvs
    simp
  have h2 : countSC (transitionEvs cfg .Rolling xpos .Starting) = 0 := by
    rw [htr]
    split <;> decide
  rw [h2, countSC_clock_only (schedTicks_bytes _ _ _ _ _ _)]
  simp [countSC, countByte]

/-- Witness for the amended C6: a concrete `Starting → Rolling` edge emits no
`Start`/`Continue`. -/
theorem C6_no_start_continue_witness :
    countSC (process defaultCfg 64 512 .Rolling (bbtSnap 48000 120 512)
      ⟨.Starting, 0, ⟨false, 0, 0, 0, 0⟩⟩).1 = 0 :=
  C6_no_start_continue_on_Starting_to_Rolling defaultCfg 64 512
    (bbtSnap 48000 120 512) ⟨.Starting, 0, ⟨false, 0, 0, 0, 0⟩⟩ rfl

/-- **C5, counterexample.** On the transition `Stopped → Starting` at frame 0
with the default configuration (transport messages and clock messages both
unsuppressed), the output is exactly one `Start` at offset 0 with **no**
`Clock` tick at offset 0 following it — the claimed "immediately followed by
one Clock tick at offset 0" fails for the into-`Starting` case. -/
theorem C5_counterexample :
    (process defaultCfg 64 512 .Starting (bbtSnap 48000 120 0) initState).1
      = [⟨0, [MIDI_RT_START]⟩]
    ∧ defaultCfg.msg_filter &&& MSG_NO_CLOCK = 0 := by
  constructor
  · rw [process_fst_eq, posUpdateEvs_not_stopped (by simp),
      if_pos (by simp [initState]), schedTicks_not_rolling (by simp) (by decide)]
    rw [show initState.m_xstate = TState.Stopped from rfl]
    rw [transitionEvs_enter _ _ _ _ (Or.inr rfl) (by simp) (by decide)]
    simp [bbtSnap]
  · decide

/-- **C5, amended.** On a transition from `Stopped` into `Rolling` or
`Starting` with transport messages not suppressed, exactly one of `Start` or
`Continue` is emitted, at offset 0, chosen solely by the snapshot's absolute
frame (`Start` iff `frame = 0`, `Continue` otherwise); it is immediately
followed by one `Clock` tick at offset 0 when clock messages are not
suppressed **and the new state is `Rolling`**; on a transition into
`Starting` the transition logic emits no clock tick (with the default
clock-while-stopped suppression no clock at all is emitted that cycle). -/
theorem C5_start_continue_selection (cfg : Config) (fuel nframes : Nat)
    (xpos : Pos) (st : GenState) (xstate : TState)
    (hstop : st.m_xstate = .Stopped)
    (hxs : xstate = .Rolling ∨ xstate = .Starting)
    (ht : cfg.msg_filter &&& MSG_NO_TRANSPORT = 0) :
    countSC (process cfg fuel nframes xstate xpos st).1 = 1
    ∧ (xpos.frame = 0 →
        ⟨0, [MIDI_RT_START]⟩ ∈ (process cfg fuel nframes xstate xpos st).1)
    ∧ (xpos.frame ≠ 0 →
        ⟨0, [MIDI_RT_CONTINUE]⟩ ∈ (process cfg fuel nframes xstate xpos st).1)
    ∧ (xstate = .Rolling → cfg.msg_filter &&& MSG_NO_CLOCK = 0 →
        ⟨0, [MIDI_RT_CLOCK]⟩ ∈ (process cfg fuel nframes xstate xpos st).1)
    ∧ (xstate = .Starting → cfg.msg_filter &&& MSG_NO_CONT_CLOCK ≠ 0 →
        countByte (process cfg fuel nframes xstate xpos st).1 MIDI_RT_CLOCK = 0) := by
  have hne : xstate ≠ st.m_xstate := by
    rw [hstop]
    rcases hxs with h | h <;> subst h <;> simp
  have hnst : xstate ≠ .Stopped := by
    rcases hxs with h | h <;> subst h <;> simp
  have htr := transitionEvs_enter cfg xstate xpos st.m_xstate hxs
    (by rw [hstop]; simp) ht
  rw [process_fst_eq, if_pos hne, posUpdateEvs_not_stopped hnst, htr]
  refine ⟨?_, ?_, ?_, ?_, ?_⟩
  · rw [countSC_append]
    rw [countSC_clock_only (schedTicks_bytes _ _ _ _ _ _)]
    rw [List.nil_append, countSC_append]
    have h1 : countSC [⟨0, [if xpos.frame = 0 then MIDI_RT_START else MIDI_RT_CONTINUE]⟩] = 1 := by
      by_cases hf : xpos.frame = 0 <;> simp [hf] <;> decide
    have h2 : countSC (if xstate = .Rolling ∧ cfg.msg_filter &&& MSG_NO_CLOCK = 0
        then [⟨0, [MIDI_RT_CLOCK]⟩] else []) = 0 := by
      split <;> decide
    omega
  · intro hf
    simp [hf]
  · intro hf
    simp [hf]
  · intro hr hc
    subst hr
    simp only [List.nil_append]
    apply List.mem_append_left
    apply List.mem_append_right
    rw [if_pos (⟨by trivial, hc⟩ : _ ∧ _)]
    simp
  · intro hs hcc
    subst hs
    rw [schedTicks_not_rolling (by simp) hcc]
    have h2 : (if (TState.Starting = TState.Rolling ∧ cfg.msg_filter &&& MSG_NO_CLOCK = 0)
        then [(⟨0, [MIDI_RT_CLOCK]⟩ : Ev)] else []) = [] := by
      rw [if_neg (by simp)]
    rw [h2]
    by_cases hf : xpos.frame = 0 <;> simp [hf] <;> decide

/-- Witness for the amended C5: `Stopped → Rolling` at frame 0 with the
default configuration emits exactly one Start (at offset 0) and the initial
clock tick. -/
theorem C5_start_continue_selection_witness :
    countSC (process defaultCfg 64 512 .Rolling (bbtSnap 48000 120 0) initState).1 = 1
    ∧ ⟨0, [MIDI_RT_START]⟩ ∈ (process defaultCfg 64 512 .Rolling (bbtSnap 48000 120 0) initState).1
    ∧ ⟨0, [MIDI_RT_CLOCK]⟩ ∈ (process defaultCfg 64 512 .Rolling (bbtSnap 48000 120 0) initState).1 := by
  have h := C5_start_continue_selection defaultCfg 64 512 (bbtSnap 48000 120 0)
    initState .Rolling rfl (Or.inl rfl) (by decide)
  exact ⟨h.1, h.2.1 rfl, h.2.2.2.1 rfl (by decide)⟩

/-- `samples_per_beat` is nonnegative in every selection branch, given a
nonnegative authority tempo (the default-BPM branches are guarded by
`0 < user_bpm`). -/
theorem calc_spb_nonneg {cfg : Config} {xpos : Pos} {spb : ℚ} {b : Nat}
    (h : calc_spb cfg xpos = some (spb, b))
    (hbpm : 0 ≤ xpos.beats_per_minute) : 0 ≤ spb := by
  unfold calc_spb at h
  split at h
  · rename_i hg
    simp only [Option.some.injEq, Prod.mk.injEq] at h
    rw [← h.1]
    exact div_nonneg (by positivity) hg.2.le
  · split at h
    · simp only [Option.some.injEq, Prod.mk.injEq] at h
      rw [← h.1]
      exact div_nonneg (by positivity) hbpm
    · split at h
      · rename_i hu
        simp only [Option.some.injEq, Prod.mk.injEq] at h
        rw [← h.1]
        exact div_nonneg (by positivity) hu.le
      · exact absurd h (by simp)

theorem ctiOf_nonneg {cfg : Config} {xpos : Pos}
    (hbpm : 0 ≤ xpos.beats_per_minute) : 0 ≤ ctiOf cfg xpos := by
  unfold ctiOf
  rcases hcs : calc_spb cfg xpos with _ | ⟨spb, b⟩
  · simp
  · have := calc_spb_nonneg hcs hbpm
    positivity

/-- The scheduler only ever advances the running position by whole tick
intervals. -/
theorem schedTicks_final (cfg : Config) (fuel n : Nat) (xs : TState)
    (xpos : Pos) (mclk : ℚ) :
    ∃ m : ℕ, (schedTicks cfg fuel n xs xpos mclk).2 = mclk + m * ctiOf cfg xpos := by
  unfold schedTicks
  split
  · exact ⟨0, by simp⟩
  · split
    · exact ⟨0, by simp⟩
    · rcases hcs : calc_spb cfg xpos with _ | ⟨spb, bbtOff⟩
      · exact ⟨0, by simp⟩
      · obtain ⟨m, hm⟩ := tickLoop_final (spb / 24) xpos.frame bbtOff n fuel mclk
        refine ⟨m, ?_⟩
        simp only []
        rw [hm]
        unfold ctiOf
        rw [hcs]

/-- **C3.** The scheduler's running position `mclk_last_tick`:
(1) advances by one clock-tick interval for every scanned tick even when the
tick's cycle-relative offset is negative (the tick is skipped, not emitted);
(2) the scan stops as soon as the offset reaches the cycle size, leaving the
running position for the next cycle;
(3) the running position is monotonically non-decreasing across cycles while
the transport stays `Rolling` (tempo read nonnegative);
(4) on every transition into `Rolling` the running position is reset to the
snapshot's current frame (and then advanced from exactly that value by whole
tick intervals). -/
theorem C3_running_position_invariants :
    (∀ (cti : ℚ) (f b n fuel : Nat) (lastTick : ℚ),
        round (lastTick + cti) - (f : ℤ) - (b : ℤ) < 0 →
        tickLoop cti f b n (fuel + 1) lastTick
          = tickLoop cti f b n fuel (lastTick + cti))
    ∧ (∀ (cti : ℚ) (f b n fuel : Nat) (lastTick : ℚ),
        (n : ℤ) ≤ round (lastTick + cti) - (f : ℤ) - (b : ℤ) →
        tickLoop cti f b n fuel lastTick = ([], lastTick))
    ∧ (∀ (cfg : Config) (fuel n : Nat) (xpos : Pos) (st : GenState),
        st.m_xstate = .Rolling → 0 ≤ xpos.beats_per_minute →
        st.mclk_last_tick ≤ (process cfg fuel n .Rolling xpos st).2.mclk_last_tick)
    ∧ (∀ (cfg : Config) (fuel n : Nat) (xstate : TState) (xpos : Pos) (st : GenState),
        xstate = .Rolling → st.m_xstate ≠ .Rolling →
        ∃ j : ℕ, (process cfg fuel n xstate xpos st).2.mclk_last_tick
          = (xpos.frame : ℚ) + j * ctiOf cfg xpos) := by
  refine ⟨?_, ?_, ?_, ?_⟩
  · intro cti f b n fuel lastTick hoff
    simp only [tickLoop]
    rw [if_neg (by omega), if_neg (by omega)]
  · intro cti f b n fuel lastTick hoff
    cases fuel with
    | zero => rfl
    | succ k =>
      simp only [tickLoop]
      rw [if_pos hoff]
  · intro cfg fuel n xpos st hst hbpm
    rw [process_snd_eq, hst]
    rw [if_neg (by simp), if_neg (by simp)]
    simp only []
    obtain ⟨m, hm⟩ := schedTicks_final cfg fuel n .Rolling xpos st.mclk_last_tick
    rw [hm]
    have hc : 0 ≤ ctiOf cfg xpos := ctiOf_nonneg hbpm
    have : (0:ℚ) ≤ (m : ℚ) * ctiOf cfg xpos := mul_nonneg (by positivity) hc
    linarith
  · intro cfg fuel n xstate xpos st hxs hne
    subst hxs
    rw [process_snd_eq, if_pos (Ne.symm hne), if_pos (Ne.symm hne)]
    simp only []
    exact schedTicks_final cfg fuel n .Rolling xpos (xpos.frame : ℚ)

/-- Witness for C3: concrete instances of the four parts. -/
theorem C3_running_position_invariants_witness :
    tickLoop 0 1 0 4 (2 + 1) 0 = tickLoop 0 1 0 4 2 (0 + 0)
    ∧ tickLoop 0 0 0 0 3 0 = ([], 0)
    ∧ (⟨.Rolling, 0, ⟨false, 0, 0, 0, 0⟩⟩ : GenState).mclk_last_tick
        ≤ (process defaultCfg 8 512 .Rolling (bbtSnap 48000 120 0)
            ⟨.Rolling, 0, ⟨false, 0, 0, 0, 0⟩⟩).2.mclk_last_tick
    ∧ ∃ j : ℕ, (process defaultCfg 8 512 .Rolling (bbtSnap 48000 120 0)
          initState).2.mclk_last_tick
        = ((bbtSnap 48000 120 0).frame : ℚ) + j * ctiOf defaultCfg (bbtSnap 48000 120 0) := by
  refine ⟨?_, ?_, ?_, ?_⟩
  · exact C3_running_position_invariants.1 0 1 0 4 2 0 (by simp)
  · exact C3_running_position_invariants.2.1 0 0 0 0 3 0 (by simp)
  · exact C3_running_position_invariants.2.2.1 defaultCfg 8 512 (bbtSnap 48000 120 0)
      ⟨.Rolling, 0, ⟨false, 0, 0, 0, 0⟩⟩ rfl (by norm_num [bbtSnap])
  · exact C3_running_position_invariants.2.2.2 defaultCfg 8 512 .Rolling
      (bbtSnap 48000 120 0) initState rfl (by simp [initState])

/-! ### Counting Start/Continue/Stop messages (claim C2) -/

theorem countSC_nil : countSC [] = 0 := rfl

theorem countSC_singleton_stop : countSC [(⟨0, [MIDI_RT_STOP]⟩ : Ev)] = 0 := by decide

theorem countSC_singleton_start : countSC [(⟨0, [MIDI_RT_START]⟩ : Ev)] = 1 := by decide

theorem countSC_singleton_continue : countSC [(⟨0, [MIDI_RT_CONTINUE]⟩ : Ev)] = 1 := by
  decide

theorem countSC_singleton_clock : countSC [(⟨0, [MIDI_RT_CLOCK]⟩ : Ev)] = 0 := by decide

theorem countByte_send_pos (msg_filter : Nat) (xpos : Pos) (c : Nat) :
    countByte (send_pos_message msg_filter xpos) c = 0 := by
  unfold send_pos_message
  split
  · rfl
  · split
    · rfl
    · split
      · rfl
      · simp [countByte]

theorem countSC_send_pos (msg_filter : Nat) (xpos : Pos) :
    countSC (send_pos_message msg_filter xpos) = 0 := by
  unfold countSC
  rw [countByte_send_pos, countByte_send_pos]

/-- Exactly when does the transition switch emit a `Start`/`Continue`:
on entering `Rolling` or `Starting` from a previous state other than
`Starting`, with transport messages enabled. -/
theorem countSC_ite_clock (P : Prop) [Decidable P] :
    countSC (if P then [(⟨0, [MIDI_RT_CLOCK]⟩ : Ev)] else []) = 0 := by
  split <;> decide

theorem countSC_ite_transport (P : Prop) [Decidable P] (b : Nat)
    (hb : countSC [(⟨0, [b]⟩ : Ev)] = 1) :
    countSC (if P then [(⟨0, [b]⟩ : Ev)] else []) = if P then 1 else 0 := by
  split
  · exact hb
  · rfl

theorem countByte_ite_clock_stop (P : Prop) [Decidable P] :
    countByte (if P then [(⟨0, [MIDI_RT_CLOCK]⟩ : Ev)] else []) MIDI_RT_STOP = 0 := by
  split <;> decide

theorem countSC_startOrContinue (cfg : Config) (xp : Pos) (m : TState) :
    countSC ((if m = TState.Starting then []
        else if xp.frame = 0 then
          (if cfg.msg_filter &&& MSG_NO_TRANSPORT = 0
            then [(⟨0, [MIDI_RT_START]⟩ : Ev)] else [])
        else
          (if cfg.msg_filter &&& MSG_NO_TRANSPORT = 0
            then [(⟨0, [MIDI_RT_CONTINUE]⟩ : Ev)] else [])))
      = if m ≠ TState.Starting ∧ cfg.msg_filter &&& MSG_NO_TRANSPORT = 0
        then 1 else 0 := by
  by_cases hm : m = TState.Starting
  · rw [if_pos hm, if_neg (by tauto), countSC_nil]
  · rw [if_neg hm]
    by_cases hf : xp.frame = 0
    · rw [if_pos hf, countSC_ite_transport _ _ countSC_singleton_start]
      exact if_congr (by tauto) rfl rfl
    · rw [if_neg hf, countSC_ite_transport _ _ countSC_singleton_continue]
      exact if_congr (by tauto) rfl rfl

theorem countSC_transitionEvs (cfg : Config) (xs : TState) (xp : Pos) (m : TState) :
    countSC (transitionEvs cfg xs xp m)
      = if (xs = .Rolling ∨ xs = .Starting) ∧ m ≠ .Starting
           ∧ cfg.msg_filter &&& MSG_NO_TRANSPORT = 0 then 1 else 0 := by
  cases xs with
  | Stopped =>
    rw [if_neg (by simp)]
    show countSC (((if cfg.msg_filter &&& MSG_NO_TRANSPORT = 0
          then [(⟨0, [MIDI_RT_STOP]⟩ : Ev)] else [])
        ++ send_pos_message cfg.msg_filter xp)
      ++ (if (TState.Stopped = TState.Rolling ∧ cfg.msg_filter &&& MSG_NO_CLOCK = 0)
          then [(⟨0, [MIDI_RT_CLOCK]⟩ : Ev)] else [])) = 0
    rw [countSC_append, countSC_append, countSC_send_pos, countSC_ite_clock]
    have h1 : countSC (if cfg.msg_filter &&& MSG_NO_TRANSPORT = 0
        then [(⟨0, [MIDI_RT_STOP]⟩ : Ev)] else []) = 0 := by
      split <;> decide
    rw [h1]
  | Rolling =>
    show countSC ((if m = TState.Starting then []
        else if xp.frame = 0 then
          (if cfg.msg_filter &&& MSG_NO_TRANSPORT = 0
            then [(⟨0, [MIDI_RT_START]⟩ : Ev)] else [])
        else
          (if cfg.msg_filter &&& MSG_NO_TRANSPORT = 0
            then [(⟨0, [MIDI_RT_CONTINUE]⟩ : Ev)] else []))
      ++ (if (TState.Rolling = TState.Rolling ∧ cfg.msg_filter &&& MSG_NO_CLOCK = 0)
          then [(⟨0, [MIDI_RT_CLOCK]⟩ : Ev)] else [])) = _
    rw [countSC_append, countSC_ite_clock, add_zero, countSC_startOrContinue]
    exact if_congr (by tauto) rfl rfl
  | Starting =>
    show countSC ((if m = TState.Starting then []
        else if xp.frame = 0 then
          (if cfg.msg_filter &&& MSG_NO_TRANSPORT = 0
            then [(⟨0, [MIDI_RT_START]⟩ : Ev)] else [])
        else
          (if cfg.msg_filter &&& MSG_NO_TRANSPORT = 0
            then [(⟨0, [MIDI_RT_CONTINUE]⟩ : Ev)] else []))
      ++ (if (TState.Starting = TState.Rolling ∧ cfg.msg_filter &&& MSG_NO_CLOCK = 0)
          then [(⟨0, [MIDI_RT_CLOCK]⟩ : Ev)] else [])) = _
    rw [countSC_append, countSC_ite_clock, add_zero, countSC_startOrContinue]
    exact if_congr (by tauto) rfl rfl

/-- A full cycle emits a `Start`/`Continue` exactly on an observed edge into
`Rolling`/`Starting` from a state other than `Starting`. -/
theorem countSC_process (cfg : Config) (fuel n : Nat) (xs : TState) (xp : Pos)
    (st : GenState) :
    countSC (process cfg fuel n xs xp st).1
      = if (xs = .Rolling ∨ xs = .Starting) ∧ xs ≠ st.m_xstate
           ∧ st.m_xstate ≠ .Starting ∧ cfg.msg_filter &&& MSG_NO_TRANSPORT = 0
        then 1 else 0 := by
  rw [process_fst_eq, countSC_append, countSC_append]
  have h1 : countSC (posUpdateEvs cfg xs xp st) = 0 := by
    unfold posUpdateEvs
    split
    · exact countSC_send_pos _ _
    · rfl
  have h3 : countSC (schedTicks cfg fuel n xs xp
      (if xs ≠ st.m_xstate then (xp.frame : ℚ) else st.mclk_last_tick)).1 = 0 :=
    countSC_clock_only (schedTicks_bytes _ _ _ _ _ _)
  rw [h1, h3]
  by_cases hch : xs ≠ st.m_xstate
  · rw [if_pos hch, countSC_transitionEvs]
    simp only [zero_add, add_zero]
    exact if_congr (by tauto) rfl rfl
  · rw [if_neg hch, countSC_nil, if_neg (by tauto)]

/-- Exactly when does a cycle emit a `Stop`: on an observed edge into
`Stopped`, with transport messages enabled. -/
theorem countStop_startOrContinue (cfg : Config) (xp : Pos) (m : TState) :
    countByte ((if m = TState.Starting then []
        else if xp.frame = 0 then
          (if cfg.msg_filter &&& MSG_NO_TRANSPORT = 0
            then [(⟨0, [MIDI_RT_START]⟩ : Ev)] else [])
        else
          (if cfg.msg_filter &&& MSG_NO_TRANSPORT = 0
            then [(⟨0, [MIDI_RT_CONTINUE]⟩ : Ev)] else [])))
      MIDI_RT_STOP = 0 := by
  by_cases hm : m = TState.Starting
  · rw [if_pos hm]
    rfl
  · rw [if_neg hm]
    by_cases hf : xp.frame = 0
    · rw [if_pos hf]
      split <;> decide
    · rw [if_neg hf]
      split <;> decide

theorem countStop_transitionEvs (cfg : Config) (xs : TState) (xp : Pos) (m : TState) :
    countByte (transitionEvs cfg xs xp m) MIDI_RT_STOP
      = if xs = .Stopped ∧ cfg.msg_filter &&& MSG_NO_TRANSPORT = 0 then 1 else 0 := by
  cases xs with
  | Stopped =>
    show countByte (((if cfg.msg_filter &&& MSG_NO_TRANSPORT = 0
          then [(⟨0, [MIDI_RT_STOP]⟩ : Ev)] else [])
        ++ send_pos_message cfg.msg_filter xp)
      ++ (if (TState.Stopped = TState.Rolling ∧ cfg.msg_filter &&& MSG_NO_CLOCK = 0)
          then [(⟨0, [MIDI_RT_CLOCK]⟩ : Ev)] else [])) MIDI_RT_STOP = _
    rw [countByte_append, countByte_append, countByte_send_pos,
      countByte_ite_clock_stop, add_zero, add_zero]
    by_cases ht : cfg.msg_filter &&& MSG_NO_TRANSPORT = 0
    · rw [if_pos ht, if_pos ⟨rfl, ht⟩]
      decide
    · rw [if_neg ht, if_neg (by tauto)]
      rfl
  | Rolling =>
    rw [if_neg (by simp)]
    show countByte ((if m = TState.Starting then []
        else if xp.frame = 0 then
          (if cfg.msg_filter &&& MSG_NO_TRANSPORT = 0
            then [(⟨0, [MIDI_RT_START]⟩ : Ev)] else [])
        else
          (if cfg.msg_filter &&& MSG_NO_TRANSPORT = 0
            then [(⟨0, [MIDI_RT_CONTINUE]⟩ : Ev)] else []))
      ++ (if (TState.Rolling = TState.Rolling ∧ cfg.msg_filter &&& MSG_NO_CLOCK = 0)
          then [(⟨0, [MIDI_RT_CLOCK]⟩ : Ev)] else [])) MIDI_RT_STOP = 0
    rw [countByte_append, countByte_ite_clock_stop, add_zero,
      countStop_startOrContinue]
  | Starting =>
    rw [if_neg (by simp)]
    show countByte ((if m = TState.Starting then []
        else if xp.frame = 0 then
          (if cfg.msg_filter &&& MSG_NO_TRANSPORT = 0
            then [(⟨0, [MIDI_RT_START]⟩ : Ev)] else [])
        else
          (if cfg.msg_filter &&& MSG_NO_TRANSPORT = 0
            then [(⟨0, [MIDI_RT_CONTINUE]⟩ : Ev)] else []))
      ++ (if (TState.Starting = TState.Rolling ∧ cfg.msg_filter &&& MSG_NO_CLOCK = 0)
          then [(⟨0, [MIDI_RT_CLOCK]⟩ : Ev)] else [])) MIDI_RT_STOP = 0
    rw [countByte_append, countByte_ite_clock_stop, add_zero,
      countStop_startOrContinue]

theorem countStop_process (cfg : Config) (fuel n : Nat) (xs : TState) (xp : Pos)
    (st : GenState) :
    countByte (process cfg fuel n xs xp st).1 MIDI_RT_STOP
      = if xs = .Stopped ∧ xs ≠ st.m_xstate
           ∧ cfg.msg_filter &&& MSG_NO_TRANSPORT = 0 then 1 else 0 := by
  rw [process_fst_eq, countByte_append, countByte_append]
  have h1 : countByte (posUpdateEvs cfg xs xp st) MIDI_RT_STOP = 0 := by
    unfold posUpdateEvs
    split
    · exact countByte_send_pos _ _ _
    · rfl
  have h3 : countByte (schedTicks cfg fuel n xs xp
      (if xs ≠ st.m_xstate then (xp.frame : ℚ) else st.mclk_last_tick)).1
        MIDI_RT_STOP = 0 := by
    apply countByte_eq_zero
    intro e he
    rw [schedTicks_bytes _ _ _ _ _ _ e he]
    simp [MIDI_RT_CLOCK, MIDI_RT_STOP]
  rw [h1, h3]
  by_cases hch : xs ≠ st.m_xstate
  · rw [if_pos hch, countStop_transitionEvs]
    simp only [zero_add, add_zero]
    exact if_congr (by tauto) rfl rfl
  · rw [if_neg hch]
    rw [if_neg (by tauto)]
    rfl

theorem countSCRun_append (a b : List (Nat × Ev)) :
    countSCRun (a ++ b) = countSCRun a + countSCRun b := by
  unfold countSCRun
  rw [List.map_append, countSC_append]

theorem countSCRun_map_pair (f : Nat) (evs : List Ev) :
    countSCRun (evs.map fun e => (f, e)) = countSC evs := by
  unfold countSCRun
  rw [List.map_map]
  simp [Function.comp]

theorem countStopRun_append (a b : List (Nat × Ev)) :
    countStopRun (a ++ b) = countStopRun a + countStopRun b := by
  unfold countStopRun
  rw [List.map_append, countByte_append]

theorem countStopRun_map_pair (f : Nat) (evs : List Ev) :
    countStopRun (evs.map fun e => (f, e)) = countByte evs MIDI_RT_STOP := by
  unfold countStopRun
  rw [List.map_map]
  simp [Function.comp]

/-- Run-level count of `Start`/`Continue` messages: one per observed edge
into `Rolling`/`Starting` from a non-`Starting` state. -/
theorem countSCRun_runGen (cfg : Config) (fuel n : Nat)
    (ht : cfg.msg_filter &&& MSG_NO_TRANSPORT = 0) :
    ∀ (cycles : List (TState × Pos)) (st : GenState),
      countSCRun (runGen cfg fuel n st cycles).1
        = scEdgeCount st.m_xstate (cycles.map Prod.fst) := by
  intro cycles
  induction cycles with
  | nil => intro st; rfl
  | cons c rest ih =>
    intro st
    obtain ⟨xs, xp⟩ := c
    rw [runGen]
    simp only [List.map_cons]
    rw [countSCRun_append, countSCRun_map_pair, countSC_process, ih,
      process_m_xstate, scEdgeCount]
    congr 1
    exact if_congr (by tauto) rfl rfl

/-- Run-level count of `Stop` messages: one per observed edge into
`Stopped`. -/
theorem countStopRun_runGen (cfg : Config) (fuel n : Nat)
    (ht : cfg.msg_filter &&& MSG_NO_TRANSPORT = 0) :
    ∀ (cycles : List (TState × Pos)) (st : GenState),
      countStopRun (runGen cfg fuel n st cycles).1
        = intoStoppedCount st.m_xstate (cycles.map Prod.fst) := by
  intro cycles
  induction cycles with
  | nil => intro st; rfl
  | cons c rest ih =>
    intro st
    obtain ⟨xs, xp⟩ := c
    rw [runGen]
    simp only [List.map_cons]
    rw [countStopRun_append, countStopRun_map_pair, countStop_process, ih,
      process_m_xstate, intoStoppedCount]
    congr 1
    apply if_congr _ rfl rfl
    constructor
    · rintro ⟨h1, h2, -⟩
      subst h1
      exact ⟨rfl, fun hh => h2 hh.symm⟩
    · rintro ⟨h1, h2⟩
      subst h1
      exact ⟨rfl, fun hh => h2 hh.symm, ht⟩

/-- **C2, counterexample.** From the initial `Stopped` state, the snapshot
sequence `Rolling, Starting` (a relocation while rolling) contains exactly one
transition from `Stopped` to `Rolling` — yet with transport messages enabled
the run emits **two** `Start`/`Continue` messages (a `Continue` on
`Stopped → Rolling` and another `Continue` on `Rolling → Starting`): the
per-transition exactly-once correspondence fails. -/
theorem C2_counterexample :
    countSCRun (runGen defaultCfg 8 512 initState
        [(.Rolling, noBBTSnap 48000 1), (.Starting, noBBTSnap 48000 1)]).1 = 2
    ∧ s2rCount .Stopped .Stopped [.Rolling, .Starting] = 1
    ∧ defaultCfg.msg_filter &&& MSG_NO_TRANSPORT = 0 := by
  refine ⟨?_, by decide, by decide⟩
  have h := countSCRun_runGen defaultCfg 8 512 (by decide)
    [(.Rolling, noBBTSnap 48000 1), (.Starting, noBBTSnap 48000 1)] initState
  rw [h]
  decide

/-- **C2, amended.** For every sequence of per-cycle transport snapshots with
transport messages not suppressed, the number of emitted `Start`/`Continue`
messages equals the number of observed edges into `Rolling`/`Starting` from a
state other than `Starting` (so each `Stopped → (Starting →)* Rolling`
passage yields exactly one, but a `Rolling → Starting` relocation edge also
yields one); and, independently, the number of emitted `Stop` messages equals
the number of observed transitions into `Stopped` — never zero, never
duplicated. -/
theorem C2_transition_message_counts (cfg : Config) (fuel n : Nat)
    (cycles : List (TState × Pos))
    (ht : cfg.msg_filter &&& MSG_NO_TRANSPORT = 0) :
    countSCRun (runGen cfg fuel n initState cycles).1
      = scEdgeCount .Stopped (cycles.map Prod.fst)
    ∧ countStopRun (runGen cfg fuel n initState cycles).1
      = intoStoppedCount .Stopped (cycles.map Prod.fst) :=
  ⟨countSCRun_runGen cfg fuel n ht cycles initState,
   countStopRun_runGen cfg fuel n ht cycles initState⟩

/-- Witness for the amended C2: a `Starting, Rolling, Stopped` lifecycle
emits exactly one `Continue` and one `Stop`. -/
theorem C2_transition_message_counts_witness :
    countSCRun (runGen defaultCfg 8 512 initState
        [(.Starting, noBBTSnap 48000 5), (.Rolling, noBBTSnap 48000 517),
         (.Stopped, noBBTSnap 48000 517)]).1 = 1
    ∧ countStopRun (runGen defaultCfg 8 512 initState
        [(.Starting, noBBTSnap 48000 5), (.Rolling, noBBTSnap 48000 517),
         (.Stopped, noBBTSnap 48000 517)]).1 = 1 := by
  have h := C2_transition_message_counts defaultCfg 8 512
    [(.Starting, noBBTSnap 48000 5), (.Rolling, noBBTSnap 48000 517),
     (.Stopped, noBBTSnap 48000 517)] (by decide)
  constructor
  · rw [h.1]
    decide
  · rw [h.2]
    decide

/-! ### The C1 scenario: constant tempo grid -/

/-- A rounded grid point is within half a sample of the grid. -/
theorem grid_abs {a : ℕ} {x : ℚ} (h : (a : ℤ) = round x) :
    |(a : ℚ) - x| ≤ 1 / 2 := by
  have h2 : (a : ℚ) = ((round x : ℤ) : ℚ) := by exact_mod_cast h
  rw [h2]
  have h3 := abs_sub_round x
  rwa [abs_sub_comm]

/-- Under the default configuration while `Rolling`, with a valid BBT tempo
source at tempo `T` and rate `R`, the scheduler is exactly the tick loop at
interval `R*60/(T*24)` with no BBT offset. -/
theorem schedTicks_c1 (R : Nat) (T : ℚ) (fuel nframes : Nat) (xp : Pos) (mclk : ℚ)
    (hv : xp.validBBT = true) (hvo : xp.validBBTOffset = false)
    (hbpm : xp.beats_per_minute = T) (hr : xp.frame_rate = R) :
    schedTicks defaultCfg fuel nframes .Rolling xp mclk
      = tickLoop ((R : ℚ) * 60 / (T * 24)) xp.frame 0 nframes fuel mclk := by
  have hcs : calc_spb defaultCfg xp = some ((R : ℚ) * 60 / T, 0) := by
    unfold calc_spb
    rw [if_neg (by simp [defaultCfg]), if_pos hv, hr, hbpm, hvo]
    simp
  unfold schedTicks
  rw [if_neg (by simp), if_neg (by decide), hcs]
  show tickLoop (((R : ℚ) * 60 / T) / 24) xp.frame 0 nframes fuel mclk = _
  rw [show ((R : ℚ) * 60 / T) / 24 = (R : ℚ) * 60 / (T * 24) from div_div _ _ _]

/-- A `Rolling` cycle with no state change keeps every emitted event on the
rounded grid `round (m * d)` and leaves the running position on the grid. -/
theorem process_rolling_grid (R : Nat) (T : ℚ) (fuel nframes : Nat) (xp : Pos)
    (st : GenState) (k : ℕ)
    (hmx : st.m_xstate = .Rolling)
    (hmclk : st.mclk_last_tick = (k : ℚ) * ((R : ℚ) * 60 / (T * 24)))
    (hv : xp.validBBT = true) (hvo : xp.validBBTOffset = false)
    (hbpm : xp.beats_per_minute = T) (hr : xp.frame_rate = R) :
    (∀ e ∈ (process defaultCfg fuel nframes .Rolling xp st).1,
        ∃ m : ℕ, ((e.time : ℤ) + (xp.frame : ℤ)
          = round ((m : ℚ) * ((R : ℚ) * 60 / (T * 24)))))
    ∧ (∃ k' : ℕ, (process defaultCfg fuel nframes .Rolling xp st).2.mclk_last_tick
        = (k' : ℚ) * ((R : ℚ) * 60 / (T * 24))) := by
  have hch : ¬ ((.Rolling : TState) ≠ st.m_xstate) := by simp [hmx]
  have hout : (process defaultCfg fuel nframes .Rolling xp st).1
      = (tickLoop ((R : ℚ) * 60 / (T * 24)) xp.frame 0 nframes fuel
          ((k : ℚ) * ((R : ℚ) * 60 / (T * 24)))).1 := by
    rw [process_fst_eq, if_neg hch, if_neg hch,
      posUpdateEvs_not_stopped (by simp),
      schedTicks_c1 R T fuel nframes xp _ hv hvo hbpm hr, hmclk]
    simp
  have hst2 : (process defaultCfg fuel nframes .Rolling xp st).2.mclk_last_tick
      = (tickLoop ((R : ℚ) * 60 / (T * 24)) xp.frame 0 nframes fuel
          ((k : ℚ) * ((R : ℚ) * 60 / (T * 24)))).2 := by
    rw [process_snd_eq, if_neg hch, if_neg hch]
    simp only []
    rw [schedTicks_c1 R T fuel nframes xp _ hv hvo hbpm hr, hmclk]
  constructor
  · intro e he
    rw [hout] at he
    obtain ⟨j, hj⟩ := tickLoop_times _ _ _ _ _ _ e he
    refine ⟨k + j + 1, ?_⟩
    rw [show ((k + j + 1 : ℕ) : ℚ) * ((R : ℚ) * 60 / (T * 24))
        = (k : ℚ) * ((R : ℚ) * 60 / (T * 24))
          + ((j : ℚ) + 1) * ((R : ℚ) * 60 / (T * 24)) by push_cast; ring]
    omega
  · obtain ⟨m, hm⟩ := tickLoop_final ((R : ℚ) * 60 / (T * 24)) xp.frame 0 nframes
      fuel ((k : ℚ) * ((R : ℚ) * 60 / (T * 24)))
    refine ⟨k + m, ?_⟩
    rw [hst2, hm]
    push_cast
    ring

/-- The first `Rolling` cycle entered from `Stopped` at frame 0: every
emitted clock event (the initial beat tick and any scheduled ticks) is on
the rounded grid, and the running position is reset to frame 0 and stays on
the grid. -/
theorem process_enter_rolling_grid (R : Nat) (T : ℚ) (fuel nframes : Nat)
    (xp : Pos) (st : GenState)
    (hmx : st.m_xstate = .Stopped)
    (hframe : xp.frame = 0)
    (hv : xp.validBBT = true) (hvo : xp.validBBTOffset = false)
    (hbpm : xp.beats_per_minute = T) (hr : xp.frame_rate = R) :
    (∀ e ∈ (process defaultCfg fuel nframes .Rolling xp st).1,
        e.bytes = [MIDI_RT_CLOCK] →
        ∃ m : ℕ, ((e.time : ℤ) + (xp.frame : ℤ)
          = round ((m : ℚ) * ((R : ℚ) * 60 / (T * 24)))))
    ∧ (∃ k' : ℕ, (process defaultCfg fuel nframes .Rolling xp st).2.mclk_last_tick
        = (k' : ℚ) * ((R : ℚ) * 60 / (T * 24))) := by
  have hch : (.Rolling : TState) ≠ st.m_xstate := by simp [hmx]
  have htr := transitionEvs_enter defaultCfg .Rolling xp st.m_xstate (Or.inl rfl)
    (by rw [hmx]; simp) (by decide)
  have hout : (process defaultCfg fuel nframes .Rolling xp st).1
      = ([⟨0, [if xp.frame = 0 then MIDI_RT_START else MIDI_RT_CONTINUE]⟩]
          ++ [⟨0, [MIDI_RT_CLOCK]⟩])
        ++ (tickLoop ((R : ℚ) * 60 / (T * 24)) xp.frame 0 nframes fuel
            ((xp.frame : ℚ))).1 := by
    rw [process_fst_eq, if_pos hch, if_pos hch,
      posUpdateEvs_not_stopped (by simp), htr,
      schedTicks_c1 R T fuel nframes xp _ hv hvo hbpm hr]
    rw [if_pos (⟨by trivial, by decide⟩ : _ ∧ _)]
    simp
  constructor
  · intro e he hbytes
    rw [hout] at he
    rcases List.mem_append.mp he with h1 | h2
    · rcases List.mem_append.mp h1 with h3 | h4
      · -- the Start/Continue event: excluded by its bytes
        exfalso
        rw [hframe] at h3
        simp only [if_pos rfl, List.mem_singleton] at h3
        rw [h3] at hbytes
        simp [MIDI_RT_START, MIDI_RT_CLOCK] at hbytes
      · -- the initial beat tick at offset 0
        simp only [List.mem_singleton] at h4
        refine ⟨0, ?_⟩
        rw [h4, hframe]
        simp
    · -- scheduled ticks: the loop starts from the reset position frame = 0
      have hstart : ((xp.frame : ℚ)) = (0 : ℚ) := by rw [hframe]; norm_num
      obtain ⟨j, hj⟩ := tickLoop_times _ _ _ _ _ _ e h2
      refine ⟨j + 1, ?_⟩
      rw [hstart] at hj
      rw [show ((j + 1 : ℕ) : ℚ) * ((R : ℚ) * 60 / (T * 24))
          = 0 + ((j : ℚ) + 1) * ((R : ℚ) * 60 / (T * 24)) by push_cast; ring]
      omega
  · have hst2 : (process defaultCfg fuel nframes .Rolling xp st).2.mclk_last_tick
        = (tickLoop ((R : ℚ) * 60 / (T * 24)) xp.frame 0 nframes fuel
            ((xp.frame : ℚ))).2 := by
      rw [process_snd_eq, if_pos hch, if_pos hch]
      simp only []
      rw [schedTicks_c1 R T fuel nframes xp _ hv hvo hbpm hr]
    obtain ⟨m, hm⟩ := tickLoop_final ((R : ℚ) * 60 / (T * 24)) xp.frame 0 nframes
      fuel ((xp.frame : ℚ))
    refine ⟨m, ?_⟩
    rw [hst2, hm, hframe]
    push_cast
    ring

/-- Once rolling on the grid, every event of the remaining cycles is on the
rounded grid. -/
theorem runGen_rolling_grid (R : Nat) (T : ℚ) (fuel nframes : Nat) :
    ∀ (L : List (TState × Pos)) (st : GenState) (k : ℕ),
      st.m_xstate = .Rolling →
      st.mclk_last_tick = (k : ℚ) * ((R : ℚ) * 60 / (T * 24)) →
      (∀ c ∈ L, c.1 = .Rolling ∧ c.2.validBBT = true ∧ c.2.validBBTOffset = false
        ∧ c.2.beats_per_minute = T ∧ c.2.frame_rate = R) →
      ∀ p ∈ (runGen defaultCfg fuel nframes st L).1,
        ∃ m : ℕ, ((p.1 + p.2.time : ℕ) : ℤ)
          = round ((m : ℚ) * ((R : ℚ) * 60 / (T * 24))) := by
  intro L
  induction L with
  | nil =>
    intro st k _ _ _ p hp
    simp [runGen] at hp
  | cons c rest ih =>
    intro st k hmx hmclk hL p hp
    obtain ⟨xs, xp⟩ := c
    obtain ⟨hxs, hv, hvo, hbpm, hr⟩ := hL _ (List.mem_cons_self _ _)
    have hxs' : xs = TState.Rolling := hxs
    subst hxs'
    rw [runGen] at hp
    rcases List.mem_append.mp hp with hp1 | hp2
    · obtain ⟨e, he, hpe⟩ := List.mem_map.mp hp1
      obtain ⟨m, hm⟩ := (process_rolling_grid R T fuel nframes xp st k hmx hmclk
        hv hvo hbpm hr).1 e he
      refine ⟨m, ?_⟩
      rw [← hpe]
      push_cast
      omega
    · obtain ⟨k', hk'⟩ := (process_rolling_grid R T fuel nframes xp st k hmx hmclk
        hv hvo hbpm hr).2
      exact ih _ k' (process_m_xstate _ _ _ _ _ _) hk'
        (fun c hc => hL c (List.mem_cons_of_mem _ hc)) p hp2

set_option maxHeartbeats 1000000 in
/-- **C1.** For a run that starts with the transport `Stopped` at frame 0 and
then holds `Rolling` at constant tempo `T` and sample rate `R` (clock
messages enabled, tempo source present), the absolute sample time of every
emitted `Clock` tick (cycle start frame plus intra-cycle offset) is within
0.5 sample of the arithmetic sequence `0, d, 2d, ...` with
`d = R*60/(T*24)`, for every number of cycles `N`; in the concrete case
`T = 120`, `R = 48000`, cycle size 512, the ticks fall at absolute sample
times `0, 1000, 2000, 3000, 4000, 5000` over 10 cycles. -/
theorem C1_tick_spacing (R : Nat) (T : ℚ) (nframes N fuel : Nat) (hT : 0 < T) :
    (∀ p ∈ (runGen defaultCfg fuel nframes initState (c1cycles R T nframes N)).1,
        p.2.bytes = [MIDI_RT_CLOCK] →
        ∃ k : ℕ, |((p.1 + p.2.time : ℕ) : ℚ)
          - (k : ℚ) * ((R : ℚ) * 60 / (T * 24))| ≤ 1 / 2)
    ∧ clockTimes (runGen defaultCfg 3 512 initState (c1cycles 48000 120 512 10)).1
        = [0, 1000, 2000, 3000, 4000, 5000] := by
  constructor
  · intro p hp hbytes
    have hc0 : process defaultCfg fuel nframes .Stopped (bbtSnap R T 0) initState
        = ([], ⟨.Stopped, 0, ⟨true, 1, 1, 0, 0⟩⟩) := rfl
    simp only [c1cycles] at hp
    rw [runGen] at hp
    rw [hc0] at hp
    simp only [List.map_nil, List.nil_append] at hp
    cases N with
    | zero => simp [runGen] at hp
    | succ N' =>
      rw [List.range_succ_eq_map, List.map_cons, List.map_map] at hp
      rw [runGen] at hp
      rcases List.mem_append.mp hp with hp1 | hp2
      · obtain ⟨e, he, hpe⟩ := List.mem_map.mp hp1
        have hgrid := (process_enter_rolling_grid R T fuel nframes
          (bbtSnap R T (0 * nframes)) ⟨.Stopped, 0, ⟨true, 1, 1, 0, 0⟩⟩
          rfl (by simp [bbtSnap]) rfl rfl rfl rfl).1 e he
          (by rw [← hpe] at hbytes; exact hbytes)
        obtain ⟨m, hm⟩ := hgrid
        refine ⟨m, grid_abs ?_⟩
        rw [← hpe]
        push_cast
        simp only [bbtSnap] at hm ⊢
        omega
      · obtain ⟨k', hk'⟩ := (process_enter_rolling_grid R T fuel nframes
          (bbtSnap R T (0 * nframes)) ⟨.Stopped, 0, ⟨true, 1, 1, 0, 0⟩⟩
          rfl (by simp [bbtSnap]) rfl rfl rfl rfl).2
        obtain ⟨m, hm⟩ := runGen_rolling_grid R T fuel nframes _ _ k'
          (process_m_xstate _ _ _ _ _ _) hk'
          (by
            intro c hc
            obtain ⟨i, _, hci⟩ := List.mem_map.mp hc
            rw [← hci]
            exact ⟨rfl, rfl, rfl, rfl, rfl⟩) p hp2
        exact ⟨m, grid_abs hm⟩
  · have hr10 : List.range 10 = [0, 1, 2, 3, 4, 5, 6, 7, 8, 9] := by rfl
    norm_num +decide [c1cycles, hr10, runGen, process, posUpdateEvs, transitionEvs,
      schedTicks, calc_spb, tickLoop, round_eq, defaultCfg, bbtSnap, initState,
      pos_changed, remember_pos, clockTimes, MSG_NO_CONT_CLOCK, MSG_NO_CLOCK,
      MSG_NO_TRANSPORT, MSG_NO_POSITION, MIDI_RT_CLOCK, MIDI_RT_START,
      MIDI_RT_CONTINUE]

/-- Witness for C1 at the concrete tempo 120 BPM, rate 48000: every emitted
clock tick of the 10-cycle scenario lies within half a sample of the
1000-sample grid. -/
theorem C1_tick_spacing_witness :
    0 < (120 : ℚ)
    ∧ (∀ p ∈ (runGen defaultCfg 3 512 initState (c1cycles 48000 120 512 10)).1,
        p.2.bytes = [MIDI_RT_CLOCK] →
        ∃ k : ℕ, |((p.1 + p.2.time : ℕ) : ℚ)
          - (k : ℚ) * ((48000 : ℚ) * 60 / (120 * 24))| ≤ 1 / 2) := by
  refine ⟨by norm_num, ?_⟩
  exact (C1_tick_spacing 48000 120 512 10 3 (by norm_num)).1

end JackMidiClock
